import Mathlib

/-!
# zmq-cpp: a verification development for `src/main.cc`

`main.cc` is a thin C++ wrapper over the ØMQ C API (`zmq::Context`, `zmq::Socket`,
`zmq::Message`) plus two worker classes (`Rep`, `Req`) whose `Loop` methods exchange
request/reply messages, and the `server` / `client` / `main` functions that wire them.

The embedding is shallow:

* the ØMQ library is an *external* collaborator; it is a parameter `T : Transport σ`, an
  arbitrary deterministic state machine answering every C API call (a "mock transport");
* every C API call of the program is recorded, with the value it returned, in a trace;
* `assert` is active (no `NDEBUG`): a failed assertion aborts the process, nothing runs after it
  (in particular no destructor);
* reading a C string from memory that holds no NUL runs past the end of that memory: the
  behaviour is undefined, the run ends there with the result `Res.undefined` and nothing is
  said of what the program does next;
* `for (;;)` loops are given a number of iterations to execute;
* `std::thread::join` on a worker blocks for ever (the worker loops have no exit).
-/

namespace ZmqCpp

/-! ## Values -/

/-- One `char`. -/
abbrev Byte := Nat

/-- A run of bytes in memory. -/
abbrev Bytes := List Byte

/-- A `void*` handle given out by the transport; `0` is `nullptr`. -/
abbrev Handle := Nat

/-- The address of a `zmq_msg_t` object (`&message_`). -/
abbrev MsgAddr := Nat

/-- The C string found at a `char*` through which the bytes `mem` can be read: the bytes before
the first NUL. When `mem` holds no NUL there is no such string (`none`): reading one, as
`std::string((char*)p)` and `std::cout << (char*)p` do, runs past the end of `mem`. -/
def cstr (mem : Bytes) : Option Bytes :=
  if 0 ∈ mem then some (mem.takeWhile (fun b => b != 0)) else none

/-- The string literal `"OK"` as it lies in memory: `'O'`, `'K'`, NUL. -/
def OK_literal : Bytes := [79, 75, 0]

/-- The value `std::string("OK")`: the two characters `'O'`, `'K'`. -/
def OK_string : Bytes := [79, 75]

/-- The socket type `ZMQ_REQ`, as `zmq.h` of the transport library defines it. -/
def ZMQ_REQ : Int := 3

/-- The socket type `ZMQ_REP`, as `zmq.h` of the transport library defines it. -/
def ZMQ_REP : Int := 4

/-! ## The C API of the transport, as seen from the program -/

/-- A call of a ØMQ C API function, with its arguments. A pointer argument to bytes is
given by the bytes it points to. Only the functions `main.cc` calls appear. -/
inductive Call where
  | zmq_ctx_new
  | zmq_ctx_term (context : Handle)
  | zmq_ctx_get (context : Handle) (option_name : Int)
  | zmq_ctx_set (context : Handle) (option_name : Int) (option_value : Int)
  | zmq_socket (context : Handle) (type : Int)
  | zmq_close (socket : Handle)
  | zmq_bind (socket : Handle) (endpoint : String)
  | zmq_connect (socket : Handle) (endpoint : String)
  | zmq_send (socket : Handle) (buf : Bytes) (len : Nat) (flags : Int)
  | zmq_recv (socket : Handle) (len : Nat) (flags : Int)
  | zmq_setsockopt (socket : Handle) (option_name : Int) (option_value : Bytes) (option_len : Nat)
  | zmq_msg_init (msg : MsgAddr)
  | zmq_msg_init_data (msg : MsgAddr) (data : Bytes) (size : Nat)
  | zmq_msg_init_size (msg : MsgAddr) (size : Nat)
  | zmq_msg_close (msg : MsgAddr)
  | zmq_msg_data (msg : MsgAddr)
  | zmq_msg_recv (msg : MsgAddr) (socket : Handle) (flags : Int)
  | zmq_msg_send (msg : MsgAddr) (socket : Handle) (flags : Int)
  deriving DecidableEq, Repr

/-- What a C API call gives back to the program: the `int` result of an `int` function (`rc`),
the pointer result of a pointer function (`ptr`, `0` for `nullptr`), and the bytes the program
can read through that pointer or in its out-buffer (`mem`). -/
structure Ret where
  rc : Int
  ptr : Handle
  mem : Bytes
  deriving DecidableEq, Repr

/-- A mock transport: a deterministic state machine that answers every call. -/
abbrev Transport (σ : Type) := Call → σ → Ret × σ

/-- A worker thread started by `Run`. -/
inductive Thread where
  | Rep_Loop (socket : Handle)
  | Req_Loop (socket : Handle)
  deriving DecidableEq, Repr

/-- The world the program runs in. -/
structure World (σ : Type) where
  /-- state of the transport -/
  st : σ
  /-- the C API calls issued so far, oldest first, each with what it returned -/
  trace : List (Call × Ret)
  /-- the whitespace-separated tokens still to be read from `std::cin` -/
  stdin : List Bytes
  /-- what was written to `std::cout`, one entry per `<<  ... << std::endl` -/
  stdout : List Bytes
  /-- what was written to `std::cerr` -/
  stderr : List Bytes
  /-- the threads started so far -/
  threads : List Thread

/-- The world at process start. -/
def World.start {σ : Type} (s : σ) (input : List Bytes) : World σ :=
  { st := s, trace := [], stdin := input, stdout := [], stderr := [], threads := [] }

/-- How a piece of the program ends: it returns a value, the process is aborted by a failed
`assert`, the thread blocks for ever, or the program has run into undefined behaviour. -/
inductive Res (α : Type) where
  | ok (a : α)
  | abort
  | block
  | undefined
  deriving DecidableEq, Repr

/-- A piece of the program: a world transformer with a result. -/
def M (σ α : Type) : Type := World σ → Res α × World σ

/-- Sequencing: what follows runs only when the first part returns. -/
def M.bind {σ α β : Type} (m : M σ α) (f : α → M σ β) : M σ β := fun w =>
  match m w with
  | (Res.ok a, w1) => f a w1
  | (Res.abort, w1) => (Res.abort, w1)
  | (Res.block, w1) => (Res.block, w1)
  | (Res.undefined, w1) => (Res.undefined, w1)

/-- Returning a value. -/
def M.pure {σ α : Type} (a : α) : M σ α := fun w => (Res.ok a, w)

instance {σ : Type} : Monad (M σ) where
  pure := M.pure
  bind := M.bind

/-- The macro `assert(cond)`. -/
def assert {σ : Type} (cond : Bool) : M σ Unit := fun w =>
  if cond then (Res.ok (), w) else (Res.abort, w)

/-- Reading the C string at a `char*` through which the bytes `mem` can be read, as
`std::string((char*)p)` and `operator<<` on a `char*` do: undefined when `mem` holds no NUL. -/
def read_cstr {σ : Type} (mem : Bytes) : M σ Bytes := fun w =>
  match cstr mem with
  | some text => (Res.ok text, w)
  | none => (Res.undefined, w)

/-- A thread that waits for something that never happens. -/
def blockForever {σ : Type} : M σ Unit := fun w => (Res.block, w)

/-- Issue one C API call: the transport answers and moves on, the trace grows by one entry. -/
def call {σ : Type} (T : Transport σ) (c : Call) : M σ Ret := fun w =>
  match w with
  | { st := st, trace := trace, stdin := stdin, stdout := out, stderr := err,
      threads := threads } =>
    match T c st with
    | (r, st1) =>
      (Res.ok r, { st := st1, trace := trace ++ [(c, r)], stdin := stdin, stdout := out,
                   stderr := err, threads := threads })

/-- The statement `std::cin >> s`: the next token replaces `s`; at end of input the
extraction fails and `s` keeps its value. -/
def cin_read {σ : Type} (s : Bytes) : M σ Bytes := fun w =>
  match w with
  | { st := st, trace := trace, stdin := stdin, stdout := out, stderr := err,
      threads := threads } =>
    match stdin with
    | [] => (Res.ok s, w)
    | tok :: rest =>
      (Res.ok tok, { st := st, trace := trace, stdin := rest, stdout := out, stderr := err,
                     threads := threads })

/-- The statement `std::cout << x << std::endl`. -/
def cout {σ : Type} (x : Bytes) : M σ Unit := fun w =>
  match w with
  | { st := st, trace := trace, stdin := stdin, stdout := out, stderr := err,
      threads := threads } =>
    (Res.ok (), { st := st, trace := trace, stdin := stdin, stdout := out ++ [x],
                  stderr := err, threads := threads })

/-- The statement `std::cerr << x << std::endl`. -/
def cerr {σ : Type} (x : Bytes) : M σ Unit := fun w =>
  match w with
  | { st := st, trace := trace, stdin := stdin, stdout := out, stderr := err,
      threads := threads } =>
    (Res.ok (), { st := st, trace := trace, stdin := stdin, stdout := out,
                  stderr := err ++ [x], threads := threads })

/-- Construction of a `std::thread`: the thread is started. -/
def spawn {σ : Type} (t : Thread) : M σ Unit := fun w =>
  match w with
  | { st := st, trace := trace, stdin := stdin, stdout := out, stderr := err,
      threads := threads } =>
    (Res.ok (), { st := st, trace := trace, stdin := stdin, stdout := out, stderr := err,
                  threads := threads ++ [t] })

/-! ## `namespace zmq`: the wrapper classes -/

namespace zmq

/-- The class `zmq::Context`; `context_` is its only member. -/
structure Context where
  context_ : Handle
  deriving DecidableEq, Repr

/-- The constructor `Context()`: `context_ = zmq_ctx_new(); assert(context_);`. -/
def Context.construct {σ : Type} (T : Transport σ) : M σ Context := do
  let r ← call T Call.zmq_ctx_new
  assert (r.ptr != 0)
  pure { context_ := r.ptr }

/-- The destructor `~Context()`. -/
def Context.destroy {σ : Type} (T : Transport σ) (self : Context) : M σ Unit := do
  let _ ← call T (Call.zmq_ctx_term self.context_)
  pure ()

/-- The method `Context::get`. -/
def Context.get {σ : Type} (T : Transport σ) (self : Context) (option_name : Int) : M σ Int := do
  let r ← call T (Call.zmq_ctx_get self.context_ option_name)
  pure r.rc

/-- The method `Context::set`. -/
def Context.set {σ : Type} (T : Transport σ) (self : Context) (option_name option_value : Int) :
    M σ Int := do
  let r ← call T (Call.zmq_ctx_set self.context_ option_name option_value)
  pure r.rc

/-- The class `zmq::Socket`; `socket_` is its only member. It can be neither copied nor moved. -/
structure Socket where
  socket_ : Handle
  deriving DecidableEq, Repr

/-- The constructor `Socket(void* context, int type)`:
`socket_ = zmq_socket(context, type); assert(socket_);`. -/
def Socket.construct {σ : Type} (T : Transport σ) (context : Handle) (type : Int) : M σ Socket := do
  let r ← call T (Call.zmq_socket context type)
  assert (r.ptr != 0)
  pure { socket_ := r.ptr }

/-- The destructor `~Socket()`. -/
def Socket.destroy {σ : Type} (T : Transport σ) (self : Socket) : M σ Unit := do
  let _ ← call T (Call.zmq_close self.socket_)
  pure ()

/-- The method `Socket::Bind`. -/
def Socket.Bind {σ : Type} (T : Transport σ) (self : Socket) (endpoint : String) : M σ Int := do
  let r ← call T (Call.zmq_bind self.socket_ endpoint)
  assert (r.rc != -1)
  pure r.rc

/-- The method `Socket::Connect`. -/
def Socket.Connect {σ : Type} (T : Transport σ) (self : Socket) (endpoint : String) : M σ Int := do
  let r ← call T (Call.zmq_connect self.socket_ endpoint)
  assert (r.rc != -1)
  pure r.rc

/-- The method `Socket::Send`: the result of `zmq_send` is handed back unchecked. -/
def Socket.Send {σ : Type} (T : Transport σ) (self : Socket) (buf : Bytes) (len : Nat)
    (flags : Int) : M σ Int := do
  let r ← call T (Call.zmq_send self.socket_ buf len flags)
  pure r.rc

/-- The method `Socket::Recv`: the result of `zmq_recv` is handed back unchecked, with the bytes
now in `buf`. -/
def Socket.Recv {σ : Type} (T : Transport σ) (self : Socket) (len : Nat) (flags : Int) :
    M σ (Int × Bytes) := do
  let r ← call T (Call.zmq_recv self.socket_ len flags)
  pure (r.rc, r.mem)

/-- The method `Socket::getsockopt` (lines 85 to 89): its body calls `zmq_setsockopt`. -/
def Socket.getsockopt {σ : Type} (T : Transport σ) (self : Socket) (option_name : Int)
    (option_value : Bytes) (option_len : Nat) : M σ Int := do
  let r ← call T (Call.zmq_setsockopt self.socket_ option_name option_value option_len)
  pure r.rc

/-- The method `Socket::setsockopt` (lines 91 to 95). -/
def Socket.setsockopt {σ : Type} (T : Transport σ) (self : Socket) (option_name : Int)
    (option_value : Bytes) (option_len : Nat) : M σ Int := do
  let r ← call T (Call.zmq_setsockopt self.socket_ option_name option_value option_len)
  pure r.rc

/-- The class `zmq::Message`: its only member is the `zmq_msg_t message_`, known to the
transport by its address. -/
structure Message where
  message_ : MsgAddr
  deriving DecidableEq, Repr

/-- The constructor `Message()`, for the object at address `addr`. -/
def Message.construct {σ : Type} (T : Transport σ) (addr : MsgAddr) : M σ Message := do
  let r ← call T (Call.zmq_msg_init addr)
  assert (r.rc == 0)
  pure { message_ := addr }

/-- The constructor `Message(void* data, size_t size)`. -/
def Message.construct_data {σ : Type} (T : Transport σ) (addr : MsgAddr) (data : Bytes)
    (size : Nat) : M σ Message := do
  let r ← call T (Call.zmq_msg_init_data addr data size)
  assert (r.rc == 0)
  pure { message_ := addr }

/-- The constructor `Message(size_t size)`. -/
def Message.construct_size {σ : Type} (T : Transport σ) (addr : MsgAddr) (size : Nat) :
    M σ Message := do
  let r ← call T (Call.zmq_msg_init_size addr size)
  assert (r.rc == 0)
  pure { message_ := addr }

/-- The destructor `~Message()`. -/
def Message.destroy {σ : Type} (T : Transport σ) (self : Message) : M σ Unit := do
  let _ ← call T (Call.zmq_msg_close self.message_)
  pure ()

/-- The method `Message::data`: `assert(data)`, then the pointer is returned; the result here
is what can be read through it. -/
def Message.data {σ : Type} (T : Transport σ) (self : Message) : M σ Bytes := do
  let r ← call T (Call.zmq_msg_data self.message_)
  assert (r.ptr != 0)
  pure r.mem

/-- The method `Message::Recv`: the result of `zmq_msg_recv` is handed back unchecked. -/
def Message.Recv {σ : Type} (T : Transport σ) (self : Message) (socket : Handle) (flags : Int) :
    M σ Int := do
  let r ← call T (Call.zmq_msg_recv self.message_ socket flags)
  pure r.rc

/-- The method `Message::Send`: the result of `zmq_msg_send` is handed back unchecked. -/
def Message.Send {σ : Type} (T : Transport σ) (self : Message) (socket : Handle) (flags : Int) :
    M σ Int := do
  let r ← call T (Call.zmq_msg_send self.message_ socket flags)
  pure r.rc

end zmq

/-! ## The workers -/

/-- The class `Rep`: the member `socket_` (the `std::thread` member holds no data of interest). -/
structure Rep where
  socket_ : zmq.Socket
  deriving DecidableEq, Repr

/-- The class `Req`. -/
structure Req where
  socket_ : zmq.Socket
  deriving DecidableEq, Repr

/-- Address of the local `message` of `Rep::Loop`. -/
def Rep.message_addr : MsgAddr := 1

/-- Address of the local `message` of `Req::Loop`. -/
def Req.message_addr : MsgAddr := 2

/-- Address of the local `msg` of `Req::Loop`. -/
def Req.msg_addr : MsgAddr := 3

/-- The constructor `Rep(zmq::Context&)`. -/
def Rep.construct {σ : Type} (T : Transport σ) (context : zmq.Context) : M σ Rep := do
  let s ← zmq.Socket.construct T context.context_ ZMQ_REP
  pure { socket_ := s }

/-- The destructor of `Rep`: the member `socket_` is destroyed. -/
def Rep.destroy {σ : Type} (T : Transport σ) (self : Rep) : M σ Unit :=
  zmq.Socket.destroy T self.socket_

/-- The method `Rep::Bind`. -/
def Rep.Bind {σ : Type} (T : Transport σ) (self : Rep) (endpoint : String) : M σ Unit := do
  let _ ← zmq.Socket.Bind T self.socket_ endpoint
  pure ()

/-- The method `Rep::Run`: a thread is started on `Rep::Loop`. -/
def Rep.Run {σ : Type} (self : Rep) : M σ Unit :=
  spawn (Thread.Rep_Loop self.socket_.socket_)

/-- The method `Rep::Join`: `Rep::Loop` has no exit, the caller waits for ever. -/
def Rep.Join {σ : Type} (_self : Rep) : M σ Unit := blockForever

/-- One turn of the `for (;;)` of `Rep::Loop` (lines 158 to 161, then the destructor of
`message` at the closing brace). The results of `Recv` and `Send` are dropped. -/
def Rep.Loop_body {σ : Type} (T : Transport σ) (self : Rep) : M σ Unit := do
  let message ← zmq.Message.construct T Rep.message_addr
  let _ ← zmq.Message.Recv T message self.socket_.socket_ 0
  let p ← zmq.Message.data T message
  let text ← read_cstr p
  cout text
  let _ ← zmq.Socket.Send T self.socket_ OK_literal 3 0
  zmq.Message.destroy T message

/-- The method `Rep::Loop`, run for `n` turns of its `for (;;)`. -/
def Rep.Loop {σ : Type} (T : Transport σ) (self : Rep) : Nat → M σ Unit
  | 0 => pure ()
  | n + 1 => do
    Rep.Loop_body T self
    Rep.Loop T self n

/-- The constructor `Req(zmq::Context&)`. -/
def Req.construct {σ : Type} (T : Transport σ) (context : zmq.Context) : M σ Req := do
  let s ← zmq.Socket.construct T context.context_ ZMQ_REQ
  pure { socket_ := s }

/-- The destructor of `Req`: the member `socket_` is destroyed. -/
def Req.destroy {σ : Type} (T : Transport σ) (self : Req) : M σ Unit :=
  zmq.Socket.destroy T self.socket_

/-- The method `Req::Connect`. -/
def Req.Connect {σ : Type} (T : Transport σ) (self : Req) (endpoint : String) : M σ Unit := do
  let _ ← zmq.Socket.Connect T self.socket_ endpoint
  pure ()

/-- The method `Req::Run`: a thread is started on `Req::Loop`. -/
def Req.Run {σ : Type} (self : Req) : M σ Unit :=
  spawn (Thread.Req_Loop self.socket_.socket_)

/-- The method `Req::Join`: `Req::Loop` has no exit, the caller waits for ever. -/
def Req.Join {σ : Type} (_self : Req) : M σ Unit := blockForever

/-- First half of a turn of `Req::Loop` (lines 182 to 184): read a token into `s`, wrap
`s.c_str()` with `s.size()+1` bytes, send. The result of `Send` is dropped. Gives back the new
value of `s` and the live `message`. -/
def Req.Loop_request {σ : Type} (T : Transport σ) (self : Req) (s : Bytes) :
    M σ (Bytes × zmq.Message) := do
  let s ← cin_read s
  let message ← zmq.Message.construct_data T Req.message_addr (s ++ [0]) (s.length + 1)
  let _ ← zmq.Message.Send T message self.socket_.socket_ 0
  pure (s, message)

/-- Second half of a turn of `Req::Loop` (lines 185 to 188, then the destructors of `msg` and
`message` at the closing brace). The result of `Recv` is dropped. -/
def Req.Loop_reply {σ : Type} (T : Transport σ) (self : Req) (message : zmq.Message) :
    M σ Unit := do
  let msg ← zmq.Message.construct T Req.msg_addr
  let _ ← zmq.Message.Recv T msg self.socket_.socket_ 0
  let d ← zmq.Message.data T msg
  let reply ← read_cstr d
  assert (reply == OK_string)
  zmq.Message.destroy T msg
  zmq.Message.destroy T message

/-- One turn of the `for (;;)` of `Req::Loop`; gives back the value of `s`. -/
def Req.Loop_body {σ : Type} (T : Transport σ) (self : Req) (s : Bytes) : M σ Bytes := do
  let (s, message) ← Req.Loop_request T self s
  Req.Loop_reply T self message
  pure s

/-- The method `Req::Loop` from the `for (;;)` on, run for `n` turns, `s` being the value of
the local `std::string s`. -/
def Req.Loop_from {σ : Type} (T : Transport σ) (self : Req) : Nat → Bytes → M σ Unit
  | 0, _ => pure ()
  | n + 1, s => do
    let s ← Req.Loop_body T self s
    Req.Loop_from T self n s

/-- The method `Req::Loop`, run for `n` turns of its `for (;;)`: `std::string s;` is empty. -/
def Req.Loop {σ : Type} (T : Transport σ) (self : Req) (n : Nat) : M σ Unit :=
  Req.Loop_from T self n []

/-! ## The node: `server`, `client`, `main` -/

/-- The bytes of a string literal written to a stream. -/
def lit (s : String) : Bytes := s.toList.map Char.toNat

/-- The function `server` (lines 197 to 210), on the main thread. -/
def server {σ : Type} (T : Transport σ) (zmq_ctx : zmq.Context) : M σ Int := do
  let rep ← Rep.construct T zmq_ctx
  Rep.Bind T rep "tcp://127.0.0.1:2222"
  Rep.Run rep
  let req ← Req.construct T zmq_ctx
  Req.Connect T req "tcp://127.0.0.1:2223"
  Req.Run req
  Rep.Join rep
  Req.Join req
  Req.destroy T req
  Rep.destroy T rep
  pure 0

/-- The function `client` (lines 212 to 225), on the main thread. -/
def client {σ : Type} (T : Transport σ) (zmq_ctx : zmq.Context) : M σ Int := do
  let req ← Req.construct T zmq_ctx
  Req.Connect T req "tcp://127.0.0.1:2222"
  Req.Run req
  let rep ← Rep.construct T zmq_ctx
  Rep.Bind T rep "tcp://127.0.0.1:2223"
  Rep.Run rep
  Req.Join req
  Rep.Join rep
  Rep.destroy T rep
  Req.destroy T req
  pure 0

/-- The function `main` (lines 227 to 241); `argv` holds the `argc` arguments, the program
name first. Falling off the end of `main` returns 0. -/
def main {σ : Type} (T : Transport σ) (zmq_ctx : zmq.Context) (argv : List String) : M σ Int := do
  if argv.length < 2 then
    cerr (lit "Invalid number of args")
    pure 2
  else if argv.getD 1 "" == "server" then
    cout (lit "server")
    server T zmq_ctx
  else if argv.getD 1 "" == "client" then
    cout (lit "client")
    client T zmq_ctx
  else
    pure 0

/-- The whole process: the static `zmq_ctx` (line 195) is constructed before `main` runs and
destroyed after `main` returns. -/
def program {σ : Type} (T : Transport σ) (argv : List String) : M σ Int := do
  let zmq_ctx ← zmq.Context.construct T
  let status ← main T zmq_ctx argv
  zmq.Context.destroy T zmq_ctx
  pure status

/-! ## Observing a trace -/

/-- The calls of a trace, without what they returned. -/
def callsOf (tr : List (Call × Ret)) : List Call := tr.map Prod.fst

/-- A send or a receive on a channel. -/
inductive ChanOp where
  | send
  | receive
  deriving DecidableEq, Repr

/-- The send or receive a call performs on the socket `sock`, if any. -/
def chanOp (sock : Handle) : Call → Option ChanOp
  | Call.zmq_send s _ _ _ => if s = sock then some ChanOp.send else none
  | Call.zmq_msg_send _ s _ => if s = sock then some ChanOp.send else none
  | Call.zmq_recv s _ _ => if s = sock then some ChanOp.receive else none
  | Call.zmq_msg_recv _ s _ => if s = sock then some ChanOp.receive else none
  | _ => none

/-- The sends and receives of a trace on the socket `sock`, in order. -/
def chanTrace (sock : Handle) (tr : List (Call × Ret)) : List ChanOp :=
  tr.filterMap (fun e => chanOp sock e.1)

/-- The other operation. -/
def ChanOp.other : ChanOp → ChanOp
  | ChanOp.send => ChanOp.receive
  | ChanOp.receive => ChanOp.send

/-- The strictly alternating sequence of `k` operations that starts with `first`. -/
def alternating (first : ChanOp) : Nat → List ChanOp
  | 0 => []
  | k + 1 => first :: alternating first.other k

/-- Whether a call is a send or a receive on any socket. -/
def Call.isTransfer : Call → Bool
  | Call.zmq_send _ _ _ _ => true
  | Call.zmq_msg_send _ _ _ => true
  | Call.zmq_recv _ _ _ => true
  | Call.zmq_msg_recv _ _ _ => true
  | _ => false

/-- The world after the call `c`. -/
def World.after {σ : Type} (T : Transport σ) (c : Call) (w : World σ) : World σ :=
  { w with st := (T c w.st).2, trace := w.trace ++ [(c, (T c w.st).1)] }

/-- The entries added to the trace between the worlds `w` and `w1`. -/
def newEvents {σ : Type} (w w1 : World σ) : List (Call × Ret) := w1.trace.drop w.trace.length

/-- The transport `T` with what its send and receive calls return replaced by `f`; the state
of the transport moves as with `T`. With `f` returning `rc = -1` every transfer fails. -/
def withTransferResults {σ : Type} (f : Call → σ → Ret) (T : Transport σ) : Transport σ :=
  fun c s => if c.isTransfer then (f c s, (T c s).2) else T c s

/-- Two worlds that differ at most in what the calls of their traces returned. -/
def SameCalls {σ : Type} (w w1 : World σ) : Prop :=
  w1.st = w.st ∧ callsOf w1.trace = callsOf w.trace ∧ w1.stdin = w.stdin ∧
    w1.stdout = w.stdout ∧ w1.stderr = w.stderr ∧ w1.threads = w.threads

/-! ## Concrete transports and workers used as examples -/

/-- A transport on which every call succeeds (`rc = 0`, a non-null pointer) and the data of
every message reads `reply`. -/
def agreeable (reply : Bytes) : Transport Unit := fun c _ =>
  match c with
  | Call.zmq_msg_data _ => ({ rc := 0, ptr := 1, mem := reply }, ())
  | _ => ({ rc := 0, ptr := 1, mem := [] }, ())

/-- The transport `agreeable OK_literal`, except that every send and every receive reports the
failure `-1`. -/
def failingTransfers : Transport Unit :=
  withTransferResults (fun _ _ => { rc := -1, ptr := 0, mem := [] }) (agreeable OK_literal)

/-- A responder whose socket is the handle `1`. -/
def rep1 : Rep := { socket_ := { socket_ := 1 } }

/-- A requester whose socket is the handle `1`. -/
def req1 : Req := { socket_ := { socket_ := 1 } }

/-! ## A faithful transport

The transport itself is not part of the repository. For the end-to-end property (C3) it is
taken to behave as section 6 of the specification assumes: a message sent on a socket connected
to an endpoint reaches the socket bound to that endpoint, byte for byte and in order; what a
bound socket sends goes back to the peer whose message it received last. -/

/-- Modelled from the spec: the state of the faithful transport (the transport library and the
network are external to the repository, section 6 of the specification). -/
structure Net where
  /-- the next handle to give out -/
  next : Handle
  /-- the endpoints bound, each with its socket -/
  bound : List (String × Handle)
  /-- the connecting sockets, each with the endpoint it dials -/
  connected : List (Handle × String)
  /-- for a bound socket, the peer whose message it received last -/
  replyTo : List (Handle × Handle)
  /-- the messages in flight, oldest first: destination socket, source socket, payload -/
  inbox : List (Handle × Handle × Bytes)
  /-- the bytes held by each initialised `zmq_msg_t` -/
  content : List (MsgAddr × Bytes)
  deriving DecidableEq, Repr

/-- The faithful transport before any call. -/
def Net.empty : Net :=
  { next := 1, bound := [], connected := [], replyTo := [], inbox := [], content := [] }

/-- The answer `rc`, with no pointer. -/
def Ret.ofRc (rc : Int) : Ret := { rc := rc, ptr := 0, mem := [] }

/-- The answer `ptr`. -/
def Ret.ofPtr (ptr : Handle) : Ret := { rc := 0, ptr := ptr, mem := [] }

/-- Where a message sent on the socket `s` goes. -/
def Net.route (bound : List (String × Handle)) (connected : List (Handle × String))
    (replyTo : List (Handle × Handle)) (s : Handle) : Option Handle :=
  match connected.lookup s with
  | some endpoint => bound.lookup endpoint
  | none => replyTo.lookup s

/-- The oldest message in flight for the socket `s`, with its source, and the other messages. -/
def Net.takeFor (s : Handle) :
    List (Handle × Handle × Bytes) → Option ((Handle × Bytes) × List (Handle × Handle × Bytes))
  | [] => none
  | (d, src, payload) :: rest =>
    if d = s then some ((src, payload), rest)
    else
      match Net.takeFor s rest with
      | some (found, others) => some (found, (d, src, payload) :: others)
      | none => none

/-- Modelled from the spec: the faithful transport, the behaviour that sections 4.2, 6 and 8
of the specification assume of the external transport. Handles are given out in sequence;
messages are held, routed and delivered unchanged; receiving with nothing in flight reports
`-1`. -/
def faithful : Transport Net := fun c n =>
  match n with
  | Net.mk next bound connected replyTo inbox content =>
    match c with
    | Call.zmq_ctx_new =>
      (Ret.ofPtr next, Net.mk (next + 1) bound connected replyTo inbox content)
    | Call.zmq_socket _ _ =>
      (Ret.ofPtr next, Net.mk (next + 1) bound connected replyTo inbox content)
    | Call.zmq_bind s endpoint =>
      (Ret.ofRc 0, Net.mk next ((endpoint, s) :: bound) connected replyTo inbox content)
    | Call.zmq_connect s endpoint =>
      (Ret.ofRc 0, Net.mk next bound ((s, endpoint) :: connected) replyTo inbox content)
    | Call.zmq_msg_init m =>
      (Ret.ofRc 0, Net.mk next bound connected replyTo inbox ((m, []) :: content))
    | Call.zmq_msg_init_data m data size =>
      (Ret.ofRc 0, Net.mk next bound connected replyTo inbox ((m, data.take size) :: content))
    | Call.zmq_msg_init_size m size =>
      (Ret.ofRc 0,
        Net.mk next bound connected replyTo inbox ((m, List.replicate size 0) :: content))
    | Call.zmq_msg_close m =>
      (Ret.ofRc 0, Net.mk next bound connected replyTo inbox (content.filter (fun e => e.1 != m)))
    | Call.zmq_msg_data m =>
      match content.lookup m with
      | some bytes => ({ rc := 0, ptr := m + 1, mem := bytes }, n)
      | none => (Ret.ofPtr 0, n)
    | Call.zmq_msg_send m s _ =>
      match content.lookup m, Net.route bound connected replyTo s with
      | some bytes, some d =>
        (Ret.ofRc bytes.length,
          Net.mk next bound connected replyTo (inbox ++ [(d, s, bytes)]) ((m, []) :: content))
      | _, _ => (Ret.ofRc (-1), n)
    | Call.zmq_send s buf len _ =>
      match Net.route bound connected replyTo s with
      | some d =>
        (Ret.ofRc len, Net.mk next bound connected replyTo (inbox ++ [(d, s, buf.take len)]) content)
      | none => (Ret.ofRc (-1), n)
    | Call.zmq_msg_recv m s _ =>
      match Net.takeFor s inbox with
      | some ((src, bytes), others) =>
        (Ret.ofRc bytes.length,
          Net.mk next bound connected ((s, src) :: replyTo) others ((m, bytes) :: content))
      | none => (Ret.ofRc (-1), n)
    | Call.zmq_recv s len _ =>
      match Net.takeFor s inbox with
      | some ((src, bytes), others) =>
        ({ rc := bytes.length, ptr := 0, mem := bytes.take len },
          Net.mk next bound connected ((s, src) :: replyTo) others content)
      | none => (Ret.ofRc (-1), n)
    | _ => (Ret.ofRc 0, n)

/-- One request/reply exchange between a responder bound at `address` and a requester connected
to `address`: the requester's turn up to its send, one whole turn of the responder, the rest of
the requester's turn. This is the order the blocking receives impose on the two workers. The
two workers are run in one world: the input is the requester's, the output the responder's. -/
def exchange {σ : Type} (T : Transport σ) (address : String) : M σ Unit := do
  let zmq_ctx ← zmq.Context.construct T
  let rep ← Rep.construct T zmq_ctx
  Rep.Bind T rep address
  let req ← Req.construct T zmq_ctx
  Req.Connect T req address
  let (_, message) ← Req.Loop_request T req []
  Rep.Loop_body T rep
  Req.Loop_reply T req message

/-- The bytes that the calls of `zmq_msg_data` on the message at `m` delivered, in order. -/
def dataDelivered (m : MsgAddr) (tr : List (Call × Ret)) : List Bytes :=
  tr.filterMap (fun e =>
    if e.1 = Call.zmq_msg_data m ∧ e.2.ptr ≠ 0 then some e.2.mem else none)

/-- A transport on which every call fails: `rc = -1`, null pointers. -/
def refusing : Transport Unit := fun _ _ => ({ rc := -1, ptr := 0, mem := [] }, ())

/-- The faithful transport once the context, handle `1`, has been created. -/
def Net.withContext : Net :=
  { next := 2, bound := [], connected := [], replyTo := [], inbox := [], content := [] }

/-! ## Clients of `zmq::Message` and `zmq::Socket`

The lifecycle properties speak of every way of using one object between its construction
and its destruction. Such a use is described by a script, run against the class. -/

/-- The three ways of constructing a `zmq::Message`. -/
inductive MessageMode where
  /-- the constructor `Message()` -/
  | empty
  /-- the constructor `Message(void* data, size_t size)` -/
  | external (data : Bytes) (size : Nat)
  /-- the constructor `Message(size_t size)` -/
  | sized (size : Nat)
  deriving DecidableEq, Repr

/-- A method call on a live `zmq::Message`. -/
inductive MessageUse where
  | data
  | Recv (socket : Handle) (flags : Int)
  | Send (socket : Handle) (flags : Int)
  deriving DecidableEq, Repr

/-- Construct the `zmq::Message` at `addr` in the given way. -/
def MessageMode.construct {σ : Type} (T : Transport σ) (addr : MsgAddr) :
    MessageMode → M σ zmq.Message
  | MessageMode.empty => zmq.Message.construct T addr
  | MessageMode.external data size => zmq.Message.construct_data T addr data size
  | MessageMode.sized size => zmq.Message.construct_size T addr size

/-- Perform one method call on the message; its result is dropped. -/
def MessageUse.perform {σ : Type} (T : Transport σ) (message : zmq.Message) :
    MessageUse → M σ Unit
  | MessageUse.data => do
    let _ ← zmq.Message.data T message
    pure ()
  | MessageUse.Recv socket flags => do
    let _ ← zmq.Message.Recv T message socket flags
    pure ()
  | MessageUse.Send socket flags => do
    let _ ← zmq.Message.Send T message socket flags
    pure ()

/-- Perform the method calls in order. -/
def MessageUse.performAll {σ : Type} (T : Transport σ) (message : zmq.Message) :
    List MessageUse → M σ Unit
  | [] => pure ()
  | u :: us => do
    MessageUse.perform T message u
    MessageUse.performAll T message us

/-- The lifetime of one `zmq::Message`: construction, the method calls, destruction. -/
def messageLifetime {σ : Type} (T : Transport σ) (addr : MsgAddr) (mode : MessageMode)
    (uses : List MessageUse) : M σ Unit := do
  let message ← MessageMode.construct T addr mode
  MessageUse.performAll T message uses
  zmq.Message.destroy T message

/-- Whether a call initialises the `zmq_msg_t` at `addr`. -/
def Call.isMsgInit (addr : MsgAddr) : Call → Bool
  | Call.zmq_msg_init m => m == addr
  | Call.zmq_msg_init_data m _ _ => m == addr
  | Call.zmq_msg_init_size m _ => m == addr
  | _ => false

/-- Whether a call closes the `zmq_msg_t` at `addr`. -/
def Call.isMsgClose (addr : MsgAddr) : Call → Bool
  | Call.zmq_msg_close m => m == addr
  | _ => false

/-- Whether a call is made on the `zmq_msg_t` at `addr`. -/
def Call.onMessage (addr : MsgAddr) : Call → Bool
  | Call.zmq_msg_init m => m == addr
  | Call.zmq_msg_init_data m _ _ => m == addr
  | Call.zmq_msg_init_size m _ => m == addr
  | Call.zmq_msg_close m => m == addr
  | Call.zmq_msg_data m => m == addr
  | Call.zmq_msg_recv m _ _ => m == addr
  | Call.zmq_msg_send m _ _ => m == addr
  | _ => false

/-- The initialising call that each way of constructing issues. -/
def MessageMode.initCall (addr : MsgAddr) : MessageMode → Call
  | MessageMode.empty => Call.zmq_msg_init addr
  | MessageMode.external data size => Call.zmq_msg_init_data addr data size
  | MessageMode.sized size => Call.zmq_msg_init_size addr size

/-- A method call on a live `zmq::Socket`. -/
inductive SocketUse where
  | Bind (endpoint : String)
  | Connect (endpoint : String)
  | Send (buf : Bytes) (len : Nat) (flags : Int)
  | Recv (len : Nat) (flags : Int)
  | getsockopt (option_name : Int) (option_value : Bytes) (option_len : Nat)
  | setsockopt (option_name : Int) (option_value : Bytes) (option_len : Nat)
  deriving DecidableEq, Repr

/-- One step in the life of the sockets of a context. The live sockets are numbered from 0 in
the order of their construction. -/
inductive SocketStep where
  /-- a `zmq::Socket` is constructed -/
  | construct (type : Int)
  /-- a method is called on the live socket number `i` -/
  | use (i : Nat) (u : SocketUse)
  /-- the live socket number `i` is destroyed -/
  | destroy (i : Nat)
  deriving DecidableEq, Repr

/-- Perform one method call on the socket; its result is dropped. -/
def SocketUse.perform {σ : Type} (T : Transport σ) (socket : zmq.Socket) : SocketUse → M σ Unit
  | SocketUse.Bind endpoint => do
    let _ ← zmq.Socket.Bind T socket endpoint
    pure ()
  | SocketUse.Connect endpoint => do
    let _ ← zmq.Socket.Connect T socket endpoint
    pure ()
  | SocketUse.Send buf len flags => do
    let _ ← zmq.Socket.Send T socket buf len flags
    pure ()
  | SocketUse.Recv len flags => do
    let _ ← zmq.Socket.Recv T socket len flags
    pure ()
  | SocketUse.getsockopt option_name option_value option_len => do
    let _ ← zmq.Socket.getsockopt T socket option_name option_value option_len
    pure ()
  | SocketUse.setsockopt option_name option_value option_len => do
    let _ ← zmq.Socket.setsockopt T socket option_name option_value option_len
    pure ()

/-- Perform one step on the live sockets `live`; gives the sockets live afterwards. A step
that names a socket that is not live does nothing: a destroyed object can be neither used nor
destroyed again, and a `zmq::Socket` can be neither copied nor moved. -/
def SocketStep.perform {σ : Type} (T : Transport σ) (context : Handle)
    (live : List zmq.Socket) : SocketStep → M σ (List zmq.Socket)
  | SocketStep.construct type => do
    let socket ← zmq.Socket.construct T context type
    pure (live ++ [socket])
  | SocketStep.use i u =>
    match live[i]? with
    | some socket => do
      SocketUse.perform T socket u
      pure live
    | none => pure live
  | SocketStep.destroy i =>
    match live[i]? with
    | some socket => do
      zmq.Socket.destroy T socket
      pure (live.eraseIdx i)
    | none => pure live

/-- Perform the steps in order, starting with the live sockets `live`. -/
def SocketStep.performAll {σ : Type} (T : Transport σ) (context : Handle) :
    List SocketStep → List zmq.Socket → M σ (List zmq.Socket)
  | [], live => pure live
  | step :: steps, live => do
    let live ← SocketStep.perform T context live step
    SocketStep.performAll T context steps live

/-- One entry of a trace seen by a monitor of endpoint handles that holds the handles
open: a successful `zmq_socket` opens the handle it returns; `zmq_close` of an open handle
closes it; `zmq_close` or any use of a handle that is not open is a violation (`none`). A handle
value the transport gives out twice is held twice. -/
def socketMonitorStep (opened : List Handle) : Call × Ret → Option (List Handle)
  | (Call.zmq_socket _ _, r) => some (if r.ptr = 0 then opened else r.ptr :: opened)
  | (Call.zmq_close s, _) => if s ∈ opened then some (opened.erase s) else none
  | (Call.zmq_bind s _, _) => if s ∈ opened then some opened else none
  | (Call.zmq_connect s _, _) => if s ∈ opened then some opened else none
  | (Call.zmq_send s _ _ _, _) => if s ∈ opened then some opened else none
  | (Call.zmq_recv s _ _, _) => if s ∈ opened then some opened else none
  | (Call.zmq_setsockopt s _ _ _, _) => if s ∈ opened then some opened else none
  | (Call.zmq_msg_send _ s _, _) => if s ∈ opened then some opened else none
  | (Call.zmq_msg_recv _ s _, _) => if s ∈ opened then some opened else none
  | _ => some opened

/-- The monitor run over a trace: the handles open at the end, or `none` after a violation. -/
def socketMonitor : List Handle → List (Call × Ret) → Option (List Handle)
  | opened, [] => some opened
  | opened, e :: rest =>
    match socketMonitorStep opened e with
    | some opened1 => socketMonitor opened1 rest
    | none => none

/-- Whether a call is `zmq_socket`. -/
def Call.isSocketCreate : Call → Bool
  | Call.zmq_socket _ _ => true
  | _ => false

/-- Whether a call is `zmq_close`. -/
def Call.isSocketClose : Call → Bool
  | Call.zmq_close _ => true
  | _ => false

/-- The number of `zmq_socket` calls of a trace. -/
def socketCreates (tr : List (Call × Ret)) : Nat := (callsOf tr).countP Call.isSocketCreate

/-- The number of `zmq_close` calls of a trace. -/
def socketCloses (tr : List (Call × Ret)) : Nat := (callsOf tr).countP Call.isSocketClose

/-- Whether an entry of a trace is a call whose result fails the `assert` that follows the
call in `main.cc`: a null context or socket handle, `-1` from `zmq_bind` or `zmq_connect`, a
non-zero result of a message initialisation, a null data pointer. -/
def failedAssertion : Call × Ret → Bool
  | (Call.zmq_ctx_new, r) => r.ptr == 0
  | (Call.zmq_socket _ _, r) => r.ptr == 0
  | (Call.zmq_bind _ _, r) => r.rc == -1
  | (Call.zmq_connect _ _, r) => r.rc == -1
  | (Call.zmq_msg_init _, r) => r.rc != 0
  | (Call.zmq_msg_init_data _ _ _, r) => r.rc != 0
  | (Call.zmq_msg_init_size _ _, r) => r.rc != 0
  | (Call.zmq_msg_data _, r) => r.ptr == 0
  | _ => false

/-- A transport that gives out a fresh handle at each call, `0` never, and reports success. -/
def counting : Transport Nat := fun _ s => ({ rc := 0, ptr := s + 1, mem := [] }, s + 1)

/-- A transport that keeps the socket options set: `zmq_setsockopt` stores the first
`option_len` bytes of the value under the socket and the option name; every call succeeds. -/
def optionStore : Transport (List (Handle × Int × Bytes)) := fun c options =>
  match c with
  | Call.zmq_setsockopt s option_name option_value option_len =>
    ({ rc := 0, ptr := 0, mem := [] }, (s, option_name, option_value.take option_len) :: options)
  | _ => ({ rc := 0, ptr := 1, mem := [] }, options)

/-! # Lemmas and theorems -/

/-! ## Running pieces of the program -/

section Run
variable {σ α β : Type}

instance : LawfulMonad (M σ) := LawfulMonad.mk' (M σ)
  (by
    intro α x
    funext w
    show M.bind x (fun a => M.pure (id a)) w = x w
    unfold M.bind M.pure
    rcases h : x w with ⟨r, w1⟩
    cases r <;> rfl)
  (by
    intro α β a f
    rfl)
  (by
    intro α β γ x f g
    funext w
    show M.bind (M.bind x f) g w = M.bind x (fun a => M.bind (f a) g) w
    unfold M.bind
    rcases h : x w with ⟨r, w1⟩
    cases r <;> rfl)

theorem run_pure (a : α) (w : World σ) : (pure a : M σ α) w = (Res.ok a, w) := rfl

theorem run_bind (m : M σ α) (f : α → M σ β) (w : World σ) :
    (m >>= f) w = M.bind m f w := rfl

theorem run_bind_ok (m : M σ α) (f : α → M σ β) (w w1 : World σ) (a : α)
    (h : m w = (Res.ok a, w1)) : (m >>= f) w = f a w1 := by
  simp [run_bind, M.bind, h]

theorem run_bind_abort (m : M σ α) (f : α → M σ β) (w w1 : World σ)
    (h : m w = (Res.abort, w1)) : (m >>= f) w = (Res.abort, w1) := by
  simp [run_bind, M.bind, h]

theorem run_bind_block (m : M σ α) (f : α → M σ β) (w w1 : World σ)
    (h : m w = (Res.block, w1)) : (m >>= f) w = (Res.block, w1) := by
  simp [run_bind, M.bind, h]

theorem run_bind_undefined (m : M σ α) (f : α → M σ β) (w w1 : World σ)
    (h : m w = (Res.undefined, w1)) : (m >>= f) w = (Res.undefined, w1) := by
  simp [run_bind, M.bind, h]

theorem read_cstr_bind (mem : Bytes) (f : Bytes → M σ β) (w : World σ) :
    (read_cstr mem >>= f) w =
      if 0 ∈ mem then f (mem.takeWhile (fun b => b != 0)) w else (Res.undefined, w) := by
  show M.bind (read_cstr mem) f w = _
  unfold M.bind read_cstr cstr
  split_ifs <;> rfl

theorem call_bind (T : Transport σ) (c : Call) (f : Ret → M σ β) (w : World σ) :
    (call T c >>= f) w = f (T c w.st).1 (w.after T c) := by
  cases w with
  | mk st trace stdin stdout stderr threads =>
    show M.bind (call T c) f _ = _
    unfold M.bind call World.after
    rcases h : T c st with ⟨r, st1⟩
    simp [h]

theorem assert_bind (b : Bool) (f : Unit → M σ β) (w : World σ) :
    (assert b >>= f) w = if b then f () w else (Res.abort, w) := by
  cases b <;> rfl

theorem cin_read_bind (s : Bytes) (f : Bytes → M σ β) (w : World σ) :
    (cin_read s >>= f) w = f (w.stdin.headD s) { w with stdin := w.stdin.tail } := by
  cases w with
  | mk st trace stdin stdout stderr threads =>
    cases stdin <;> rfl

theorem cout_bind (x : Bytes) (f : Unit → M σ β) (w : World σ) :
    (cout x >>= f) w = f () { w with stdout := w.stdout ++ [x] } := by
  cases w with
  | mk st trace stdin stdout stderr threads => rfl

end Run

/-! ## Alternating sequences -/

theorem length_alternating (first : ChanOp) (k : Nat) : (alternating first k).length = k := by
  induction k generalizing first with
  | zero => rfl
  | succ k ih => simp [alternating, ih]

theorem other_other (o : ChanOp) : o.other.other = o := by
  cases o <;> rfl

theorem take_alternating (first : ChanOp) (j k : Nat) :
    (alternating first k).take j = alternating first (min j k) := by
  induction k generalizing first j with
  | zero => simp [alternating]
  | succ k ih =>
    cases j with
    | zero => simp [alternating]
    | succ j => simp [alternating, ih, Nat.succ_min_succ]

theorem alternating_two_append (first : ChanOp) (k : Nat) :
    alternating first 2 ++ alternating first k = alternating first (2 + k) := by
  have h : 2 + k = (k + 1) + 1 := by omega
  rw [h]
  simp [alternating, other_other]

theorem eq_alternating_length {first : ChanOp} {l : List ChanOp} {k : Nat}
    (h : l = alternating first k) : l = alternating first l.length := by
  have hk : l.length = k := by rw [h, length_alternating]
  rw [hk]
  exact h

theorem alternating_rounds (first : ChanOp) (n : Nat) :
    alternating first (2 * n) = (List.replicate n [first, first.other]).flatten := by
  induction n with
  | zero => rfl
  | succ n ih =>
    have h : 2 * (n + 1) = 2 + 2 * n := by omega
    rw [h, ← alternating_two_append, ih]
    simp [List.replicate_succ, alternating]

/-! ## Channel traces -/

theorem chanTrace_append (sock : Handle) (a b : List (Call × Ret)) :
    chanTrace sock (a ++ b) = chanTrace sock a ++ chanTrace sock b := by
  simp [chanTrace]

theorem filterMap_take_exists {α β : Type} (f : α → Option β) (l : List α) (k : Nat) :
    ∃ j, (l.take k).filterMap f = (l.filterMap f).take j := by
  induction l generalizing k with
  | nil => exact ⟨0, by simp⟩
  | cons a l ih =>
    cases k with
    | zero => exact ⟨0, by simp⟩
    | succ k =>
      obtain ⟨j, hj⟩ := ih k
      cases hfa : f a with
      | none => exact ⟨j, by simp [List.filterMap_cons, hfa, hj]⟩
      | some b => exact ⟨j + 1, by simp [List.filterMap_cons, hfa, hj]⟩

/-- Every beginning of a trace whose channel operations alternate has alternating channel
operations. -/
theorem chanTrace_take_alternating (sock : Handle) (first : ChanOp) (tr : List (Call × Ret))
    (m : Nat) (h : chanTrace sock tr = alternating first m) (k : Nat) :
    chanTrace sock (tr.take k) =
      alternating first (chanTrace sock (tr.take k)).length := by
  obtain ⟨j, hj⟩ := filterMap_take_exists (fun e => chanOp sock e.1) tr k
  have h1 : chanTrace sock (tr.take k) = alternating first (min j m) := by
    unfold chanTrace at *
    rw [hj, h, take_alternating]
  exact eq_alternating_length h1

/-! ## The requester alternates send and receive (C1) -/

/-- One turn of `Req::Loop`: the trace only grows, the turn performs on its socket a beginning
of `send, receive`, the whole of it when the turn completes, and the turn never blocks. -/
theorem Req_Loop_body_chan {σ : Type} (T : Transport σ) (self : Req) (s : Bytes) (w : World σ) :
    (Req.Loop_body T self s w).2.trace = w.trace ++ newEvents w (Req.Loop_body T self s w).2 ∧
    (∃ j, chanTrace self.socket_.socket_ (newEvents w (Req.Loop_body T self s w).2) =
        alternating ChanOp.send j ∧
      ∀ a, (Req.Loop_body T self s w).1 = Res.ok a → j = 2) ∧
    (Req.Loop_body T self s w).1 ≠ Res.block := by
  simp only [Req.Loop_body, Req.Loop_request, Req.Loop_reply, zmq.Message.construct_data,
    zmq.Message.construct, zmq.Message.Send, zmq.Message.Recv, zmq.Message.data,
    zmq.Message.destroy, bind_assoc, pure_bind, call_bind, assert_bind,
    cin_read_bind, read_cstr_bind]
  split_ifs
  · refine ⟨?_, ⟨2, ?_, ?_⟩, ?_⟩ <;>
      simp [World.after, newEvents, chanTrace, chanOp, alternating, run_pure, ChanOp.other]
  · refine ⟨?_, ⟨2, ?_, ?_⟩, ?_⟩ <;>
      simp [World.after, newEvents, chanTrace, chanOp, alternating, run_pure, ChanOp.other]
  · refine ⟨?_, ⟨2, ?_, ?_⟩, ?_⟩ <;>
      simp [World.after, newEvents, chanTrace, chanOp, alternating, run_pure, ChanOp.other]
  · refine ⟨?_, ⟨2, ?_, ?_⟩, ?_⟩ <;>
      simp [World.after, newEvents, chanTrace, chanOp, alternating, run_pure, ChanOp.other]
  · refine ⟨?_, ⟨1, ?_, ?_⟩, ?_⟩ <;>
      simp [World.after, newEvents, chanTrace, chanOp, alternating, run_pure, ChanOp.other]
  · refine ⟨?_, ⟨0, ?_, ?_⟩, ?_⟩ <;>
      simp [World.after, newEvents, chanTrace, chanOp, alternating, run_pure, ChanOp.other]

/-- The trace of `n` turns of `Req::Loop` extends the trace at the start by entries whose
operations on the socket alternate from a send; `n` completed turns give `2 * n` operations. -/
theorem Req_Loop_from_chan {σ : Type} (T : Transport σ) (self : Req) (n : Nat) (s : Bytes)
    (w : World σ) :
    ∃ evs j, (Req.Loop_from T self n s w).2.trace = w.trace ++ evs ∧
      chanTrace self.socket_.socket_ evs = alternating ChanOp.send j ∧
      ((Req.Loop_from T self n s w).1 = Res.ok () → j = 2 * n) := by
  induction n generalizing s w with
  | zero => exact ⟨[], 0, by simp [Req.Loop_from, run_pure], rfl, fun _ => rfl⟩
  | succ n ih =>
    obtain ⟨htr, ⟨j1, hj1, hok1⟩, hnb⟩ := Req_Loop_body_chan T self s w
    rcases hb : Req.Loop_body T self s w with ⟨r, w1⟩
    rw [hb] at htr hj1 hok1 hnb
    cases r with
    | ok s1 =>
      obtain ⟨evs2, j2, htr2, hj2, hok2⟩ := ih s1 w1
      have hrun : Req.Loop_from T self (n + 1) s w = Req.Loop_from T self n s1 w1 :=
        run_bind_ok _ _ w w1 s1 hb
      have hj : j1 = 2 := hok1 s1 rfl
      subst hj
      refine ⟨newEvents w w1 ++ evs2, 2 + j2, ?_, ?_, ?_⟩
      · rw [hrun, htr2, ← List.append_assoc, ← htr]
      · rw [chanTrace_append, hj1, hj2, alternating_two_append]
      · intro h
        rw [hrun] at h
        have := hok2 h
        omega
    | abort =>
      have hrun : Req.Loop_from T self (n + 1) s w = (Res.abort, w1) :=
        run_bind_abort _ _ w w1 hb
      refine ⟨newEvents w w1, j1, ?_, hj1, ?_⟩
      · rw [hrun]
        exact htr
      · intro h
        rw [hrun] at h
        cases h
    | undefined =>
      have hrun : Req.Loop_from T self (n + 1) s w = (Res.undefined, w1) :=
        run_bind_undefined _ _ w w1 hb
      refine ⟨newEvents w w1, j1, ?_, hj1, ?_⟩
      · rw [hrun]
        exact htr
      · intro h
        rw [hrun] at h
        cases h
    | block => exact absurd rfl hnb

/-- C1 (strict alternation of the requester). For every mock transport `T` in any state `st`,
every input and every number `n` of turns of `Req::Loop`, every beginning (the first `k`
entries, for every `k`) of the trace of the run performs on the requester's socket a strictly
alternating sequence of operations that starts with a send: send, receive, send, receive, ...
so a send is only issued once the receive after the previous send has returned. When the `n`
turns complete, the sequence has exactly `2 * n` operations. -/
theorem C1_requester_strict_alternation {σ : Type} (T : Transport σ) (self : Req) (n : Nat)
    (st : σ) (input : List Bytes) (k : Nat) :
    chanTrace self.socket_.socket_ ((Req.Loop T self n (World.start st input)).2.trace.take k) =
      alternating ChanOp.send
        (chanTrace self.socket_.socket_
          ((Req.Loop T self n (World.start st input)).2.trace.take k)).length ∧
    ((Req.Loop T self n (World.start st input)).1 = Res.ok () →
      chanTrace self.socket_.socket_ (Req.Loop T self n (World.start st input)).2.trace =
        alternating ChanOp.send (2 * n)) := by
  obtain ⟨evs, j, htr, hj, hok⟩ := Req_Loop_from_chan T self n [] (World.start st input)
  have htr1 : (Req.Loop T self n (World.start st input)).2.trace = evs := by
    unfold Req.Loop
    rw [htr]
    rfl
  constructor
  · rw [htr1]
    exact chanTrace_take_alternating _ _ evs j hj k
  · intro h
    rw [htr1, hj, hok h]

/-! ## The responder pairs each receive with one send (C2) -/

/-- One turn of `Rep::Loop`: the trace only grows, the turn performs on its socket a beginning
of `receive, send`, the whole of it when the turn completes, and the turn never blocks. -/
theorem Rep_Loop_body_chan {σ : Type} (T : Transport σ) (self : Rep) (w : World σ) :
    (Rep.Loop_body T self w).2.trace = w.trace ++ newEvents w (Rep.Loop_body T self w).2 ∧
    (∃ j, chanTrace self.socket_.socket_ (newEvents w (Rep.Loop_body T self w).2) =
        alternating ChanOp.receive j ∧
      ((Rep.Loop_body T self w).1 = Res.ok () → j = 2)) ∧
    (Rep.Loop_body T self w).1 ≠ Res.block := by
  simp only [Rep.Loop_body, zmq.Message.construct, zmq.Message.Recv, zmq.Message.data,
    zmq.Message.destroy, zmq.Socket.Send, bind_assoc, pure_bind, call_bind, assert_bind,
    cout_bind, read_cstr_bind]
  split_ifs
  · refine ⟨?_, ⟨2, ?_, ?_⟩, ?_⟩ <;>
      simp [World.after, newEvents, chanTrace, chanOp, alternating, run_pure, ChanOp.other]
  · refine ⟨?_, ⟨1, ?_, ?_⟩, ?_⟩ <;>
      simp [World.after, newEvents, chanTrace, chanOp, alternating, run_pure, ChanOp.other]
  · refine ⟨?_, ⟨1, ?_, ?_⟩, ?_⟩ <;>
      simp [World.after, newEvents, chanTrace, chanOp, alternating, run_pure, ChanOp.other]
  · refine ⟨?_, ⟨0, ?_, ?_⟩, ?_⟩ <;>
      simp [World.after, newEvents, chanTrace, chanOp, alternating, run_pure, ChanOp.other]

/-- The trace of `n` turns of `Rep::Loop` extends the trace at the start by entries whose
operations on the socket alternate from a receive; `n` completed turns give `2 * n`. -/
theorem Rep_Loop_chan {σ : Type} (T : Transport σ) (self : Rep) (n : Nat) (w : World σ) :
    ∃ evs j, (Rep.Loop T self n w).2.trace = w.trace ++ evs ∧
      chanTrace self.socket_.socket_ evs = alternating ChanOp.receive j ∧
      ((Rep.Loop T self n w).1 = Res.ok () → j = 2 * n) := by
  induction n generalizing w with
  | zero => exact ⟨[], 0, by simp [Rep.Loop, run_pure], rfl, fun _ => rfl⟩
  | succ n ih =>
    obtain ⟨htr, ⟨j1, hj1, hok1⟩, hnb⟩ := Rep_Loop_body_chan T self w
    rcases hb : Rep.Loop_body T self w with ⟨r, w1⟩
    rw [hb] at htr hj1 hok1 hnb
    cases r with
    | ok u =>
      obtain ⟨evs2, j2, htr2, hj2, hok2⟩ := ih w1
      have hrun : Rep.Loop T self (n + 1) w = Rep.Loop T self n w1 :=
        run_bind_ok _ _ w w1 u hb
      have hj : j1 = 2 := hok1 rfl
      subst hj
      refine ⟨newEvents w w1 ++ evs2, 2 + j2, ?_, ?_, ?_⟩
      · rw [hrun, htr2, ← List.append_assoc, ← htr]
      · rw [chanTrace_append, hj1, hj2, alternating_two_append]
      · intro h
        rw [hrun] at h
        have := hok2 h
        omega
    | abort =>
      have hrun : Rep.Loop T self (n + 1) w = (Res.abort, w1) :=
        run_bind_abort _ _ w w1 hb
      refine ⟨newEvents w w1, j1, ?_, hj1, ?_⟩
      · rw [hrun]
        exact htr
      · intro h
        rw [hrun] at h
        cases h
    | undefined =>
      have hrun : Rep.Loop T self (n + 1) w = (Res.undefined, w1) :=
        run_bind_undefined _ _ w w1 hb
      refine ⟨newEvents w w1, j1, ?_, hj1, ?_⟩
      · rw [hrun]
        exact htr
      · intro h
        rw [hrun] at h
        cases h
    | block => exact absurd rfl hnb

/-- C2 (responder pairing). For every mock transport `T` in any state `st`, every input and
every number `n` of turns of `Rep::Loop`, every beginning (the first `k` entries, for every
`k`) of the trace of the run performs on the responder's socket a strictly alternating
sequence receive, send, receive, send, ...: between a receive and the next receive there is
exactly one send. When the `n` turns complete, the sequence is exactly `n` repetitions of
(receive, send), so every receive has its reply. -/
theorem C2_responder_pairing {σ : Type} (T : Transport σ) (self : Rep) (n : Nat)
    (st : σ) (input : List Bytes) (k : Nat) :
    chanTrace self.socket_.socket_ ((Rep.Loop T self n (World.start st input)).2.trace.take k) =
      alternating ChanOp.receive
        (chanTrace self.socket_.socket_
          ((Rep.Loop T self n (World.start st input)).2.trace.take k)).length ∧
    ((Rep.Loop T self n (World.start st input)).1 = Res.ok () →
      chanTrace self.socket_.socket_ (Rep.Loop T self n (World.start st input)).2.trace =
        (List.replicate n [ChanOp.receive, ChanOp.send]).flatten) := by
  obtain ⟨evs, j, htr, hj, hok⟩ := Rep_Loop_chan T self n (World.start st input)
  have htr1 : (Rep.Loop T self n (World.start st input)).2.trace = evs := by
    rw [htr]
    rfl
  constructor
  · rw [htr1]
    exact chanTrace_take_alternating _ _ evs j hj k
  · intro h
    rw [htr1, hj, hok h]
    exact alternating_rounds ChanOp.receive n

/-! ## One exchange over a faithful transport (C3) -/

/-- C3 (the reply is the fixed token, not an echo). For every input token `s` (whatever
follows it on the input, whatever the address), when a responder bound at `address` and a
requester connected to `address` exchange one request over the faithful transport: the exchange
completes; the responder is delivered exactly the bytes of `s` followed by one NUL, `|s| + 1`
bytes; the requester is delivered exactly the three bytes `'O'`, `'K'`, NUL, whatever `s`. -/
theorem C3_echo_is_fixed_token (s : Bytes) (rest : List Bytes) (address : String) :
    (exchange faithful address (World.start Net.empty (s :: rest))).1 = Res.ok () ∧
    dataDelivered Rep.message_addr
      (exchange faithful address (World.start Net.empty (s :: rest))).2.trace = [s ++ [0]] ∧
    (s ++ [0]).length = s.length + 1 ∧
    dataDelivered Req.msg_addr
      (exchange faithful address (World.start Net.empty (s :: rest))).2.trace = [[79, 75, 0]] := by
  have htake : List.take (s.length + 1) (s ++ [0]) = s ++ [0] :=
    List.take_of_length_le (by simp)
  simp only [exchange, zmq.Context.construct, Rep.construct, Req.construct, Rep.Bind, Req.Connect,
    zmq.Socket.construct, zmq.Socket.Bind, zmq.Socket.Connect,
    Rep.Loop_body, Req.Loop_request, Req.Loop_reply, zmq.Message.construct_data,
    zmq.Message.construct, zmq.Message.Send, zmq.Message.Recv, zmq.Message.data,
    zmq.Message.destroy, zmq.Socket.Send, bind_assoc, pure_bind, call_bind, assert_bind,
    cin_read_bind, cout_bind, read_cstr_bind, World.after, World.start, Net.empty, faithful]
  simp [htake, Ret.ofRc, Ret.ofPtr, Net.route, Net.takeFor, List.lookup, run_pure, dataDelivered,
    OK_literal, OK_string, cstr, ZMQ_REP, ZMQ_REQ, Rep.message_addr, Req.message_addr,
    Req.msg_addr]


/-- The exchange for the input `hello`: the responder is delivered the six bytes `hello\0`,
prints `hello`, and the requester is delivered `OK\0`. -/
theorem exchange_hello :
    dataDelivered Rep.message_addr
      (exchange faithful "tcp://127.0.0.1:2222"
        (World.start Net.empty [[104, 101, 108, 108, 111]])).2.trace =
      [[104, 101, 108, 108, 111, 0]] ∧
    (exchange faithful "tcp://127.0.0.1:2222"
        (World.start Net.empty [[104, 101, 108, 108, 111]])).2.stdout =
      [[104, 101, 108, 108, 111]] ∧
    dataDelivered Req.msg_addr
      (exchange faithful "tcp://127.0.0.1:2222"
        (World.start Net.empty [[104, 101, 108, 108, 111]])).2.trace = [[79, 75, 0]] := by
  refine ⟨?_, ?_, ?_⟩ <;> decide


/-! ## The requester reads the reply as a C string (C4) -/

/-- C4, as stated, fails. The reply delivered to the requester in its first turn is the four
bytes `'O'`, `'K'`, NUL, `'X'`, which is not the token `'O'`, `'K'`, NUL; the assertion compares
C strings, so the worker goes on: both turns complete and the second turn sends again. -/
theorem C4_counterexample :
    (Req.Loop (agreeable [79, 75, 0, 88]) req1 2 (World.start () [[104, 105]])).2.trace[4]? =
      some (Call.zmq_msg_data 3, { rc := 0, ptr := 1, mem := [79, 75, 0, 88] }) ∧
    ([79, 75, 0, 88] : Bytes) ≠ OK_literal ∧
    (Req.Loop (agreeable [79, 75, 0, 88]) req1 2 (World.start () [[104, 105]])).1 = Res.ok () ∧
    (callsOf (Req.Loop (agreeable [79, 75, 0, 88]) req1 2
      (World.start () [[104, 105]])).2.trace)[8]? = some (Call.zmq_msg_send 2 1 0) := by
  refine ⟨?_, ?_, ?_, ?_⟩ <;> decide

theorem cstr_of_mem (mem : Bytes) (h : 0 ∈ mem) :
    cstr mem = some (mem.takeWhile (fun b => b != 0)) := by
  simp [cstr, h]

/-- C4, amended. In any turn of `Req::Loop` (any transport, any world `w` at the start of the
turn, any value of `s`) in which `zmq_msg_data` delivers a reply that holds a NUL (a non-null
pointer to the bytes `ret.mem`, one of which is NUL): if the reply read as a C string, its
bytes before the first NUL, is `"OK"`, the turn completes and the loop goes on with the next
turn; otherwise the loop ends there by the failed assertion, the call of `zmq_msg_data` being
the last call ever issued, so that the turn's own send and receive are the last on the socket.
Nothing is stated of a reply that holds no NUL: reading it as a C string is undefined. -/
theorem C4_reply_is_read_as_C_string {σ : Type} (T : Transport σ) (self : Req) (s : Bytes)
    (w : World σ) (n : Nat) (ret : Ret)
    (hdelivered : (Call.zmq_msg_data Req.msg_addr, ret) ∈
      newEvents w (Req.Loop_body T self s w).2)
    (hptr : ret.ptr ≠ 0) (hnul : 0 ∈ ret.mem) :
    (cstr ret.mem = some OK_string →
      ∃ s1, (Req.Loop_body T self s w).1 = Res.ok s1 ∧
        Req.Loop_from T self (n + 1) s w =
          Req.Loop_from T self n s1 (Req.Loop_body T self s w).2) ∧
    (cstr ret.mem ≠ some OK_string →
      Req.Loop_from T self (n + 1) s w = (Res.abort, (Req.Loop_body T self s w).2) ∧
      (callsOf (newEvents w (Req.Loop_body T self s w).2)).getLast? =
        some (Call.zmq_msg_data Req.msg_addr) ∧
      chanTrace self.socket_.socket_ (newEvents w (Req.Loop_body T self s w).2) =
        [ChanOp.send, ChanOp.receive]) := by
  rw [cstr_of_mem ret.mem hnul]
  simp only [Option.some.injEq, ne_eq]
  rcases hb : Req.Loop_body T self s w with ⟨r, w1⟩
  rw [hb] at hdelivered
  have hb1 := hb
  simp only [Req.Loop_body, Req.Loop_request, Req.Loop_reply, zmq.Message.construct_data,
    zmq.Message.construct, zmq.Message.Send, zmq.Message.Recv, zmq.Message.data,
    zmq.Message.destroy, bind_assoc, pure_bind, call_bind, assert_bind,
    cin_read_bind, read_cstr_bind] at hb1
  split_ifs at hb1 with h1 h2 h3 h5 h4
  all_goals obtain ⟨hr, hw⟩ := Prod.mk.inj hb1
  all_goals subst hr hw
  all_goals simp [newEvents, World.after, run_pure] at hdelivered
  all_goals subst hdelivered
  · simp only [World.after, beq_iff_eq, List.headD_eq_head?_getD] at h4
    refine ⟨fun _ => ⟨_, rfl, run_bind_ok _ _ w _ _ hb⟩, fun hc => absurd h4 hc⟩
  · simp only [World.after, beq_iff_eq, List.headD_eq_head?_getD] at h4
    refine ⟨fun hc => absurd hc h4, fun _ => ⟨run_bind_abort _ _ w _ hb, ?_, ?_⟩⟩
    · simp [newEvents, World.after, callsOf]
    · simp [newEvents, World.after, chanTrace, chanOp]
  · simp only [World.after, List.headD_eq_head?_getD] at h5
    exact absurd hnul h5
  · simp [World.after] at h3
    exact absurd h3 hptr

/-- C4, amended, at a concrete input: the reply `'O'`, `'K'`, NUL, `'X'` on the transport
`agreeable` holds a NUL and reads `"OK"`, and the loop goes on. -/
theorem C4_reply_is_read_as_C_string_witness :
    ((Call.zmq_msg_data Req.msg_addr, ({ rc := 0, ptr := 1, mem := [79, 75, 0, 88] } : Ret)) ∈
      newEvents (World.start () [[104, 105]])
        (Req.Loop_body (agreeable [79, 75, 0, 88]) req1 [] (World.start () [[104, 105]])).2) ∧
    (0 : Byte) ∈ ([79, 75, 0, 88] : Bytes) ∧
    cstr [79, 75, 0, 88] = some OK_string ∧
    ∃ s1, (Req.Loop_body (agreeable [79, 75, 0, 88]) req1 []
        (World.start () [[104, 105]])).1 = Res.ok s1 ∧
      Req.Loop_from (agreeable [79, 75, 0, 88]) req1 (1 + 1) [] (World.start () [[104, 105]]) =
        Req.Loop_from (agreeable [79, 75, 0, 88]) req1 1 s1
          (Req.Loop_body (agreeable [79, 75, 0, 88]) req1 []
            (World.start () [[104, 105]])).2 :=
  ⟨by decide, by decide, by decide,
    (C4_reply_is_read_as_C_string (agreeable [79, 75, 0, 88]) req1 [] (World.start () [[104, 105]])
      1 { rc := 0, ptr := 1, mem := [79, 75, 0, 88] } (by decide) (by decide) (by decide)).1
      (by decide)⟩

/-- A reply that holds no NUL: on the transport whose every message reads the two bytes
`'O'`, `'K'`, the turn of `Req::Loop` runs into undefined behaviour at the read of the reply,
after the call of `zmq_msg_data`; the model says nothing of what the program does next. -/
theorem reply_without_NUL_is_undefined :
    (Req.Loop (agreeable [79, 75]) req1 1 (World.start () [[104, 105]])).1 = Res.undefined ∧
    (callsOf (Req.Loop (agreeable [79, 75]) req1 1
      (World.start () [[104, 105]])).2.trace).getLast? = some (Call.zmq_msg_data 3) := by
  refine ⟨?_, ?_⟩ <;> decide

/-! ## The results of send and receive are not looked at (C5) -/

theorem withTransferResults_snd {σ : Type} (f : Call → σ → Ret) (T : Transport σ) (c : Call)
    (s : σ) : (withTransferResults f T c s).2 = (T c s).2 := by
  unfold withTransferResults
  split <;> rfl

theorem withTransferResults_other {σ : Type} (f : Call → σ → Ret) (T : Transport σ) (c : Call)
    (s : σ) (h : c.isTransfer = false) : withTransferResults f T c s = T c s := by
  unfold withTransferResults
  simp [h]

theorem SameCalls_refl {σ : Type} (w : World σ) : SameCalls w w :=
  ⟨rfl, rfl, rfl, rfl, rfl, rfl⟩

theorem Rep_Loop_body_sameCalls {σ : Type} (f : Call → σ → Ret) (T : Transport σ) (self : Rep)
    (w w1 : World σ) (h : SameCalls w w1) :
    SameCalls (Rep.Loop_body T self w).2 (Rep.Loop_body (withTransferResults f T) self w1).2 ∧
    (Rep.Loop_body (withTransferResults f T) self w1).1 = (Rep.Loop_body T self w).1 := by
  obtain ⟨h1, h2, h3, h4, h5, h6⟩ := h
  have h2m : w1.trace.map Prod.fst = w.trace.map Prod.fst := h2
  simp only [Rep.Loop_body, zmq.Message.construct, zmq.Message.Recv, zmq.Message.data,
    zmq.Message.destroy, zmq.Socket.Send, bind_assoc, pure_bind, call_bind, assert_bind,
    cout_bind, read_cstr_bind, World.after, withTransferResults_snd, h1,
    withTransferResults_other f T (Call.zmq_msg_init _) _ rfl,
    withTransferResults_other f T (Call.zmq_msg_data _) _ rfl]
  split_ifs <;>
    simp [SameCalls, callsOf, run_pure, h1, h2m, h3, h4, h5, h6, withTransferResults_snd]

theorem Rep_Loop_sameCalls {σ : Type} (f : Call → σ → Ret) (T : Transport σ) (self : Rep)
    (n : Nat) (w w1 : World σ) (h : SameCalls w w1) :
    SameCalls (Rep.Loop T self n w).2 (Rep.Loop (withTransferResults f T) self n w1).2 ∧
    (Rep.Loop (withTransferResults f T) self n w1).1 = (Rep.Loop T self n w).1 := by
  induction n generalizing w w1 with
  | zero => exact ⟨h, rfl⟩
  | succ n ih =>
    obtain ⟨hs, hr⟩ := Rep_Loop_body_sameCalls f T self w w1 h
    rcases hb : Rep.Loop_body T self w with ⟨r, w2⟩
    rcases hb1 : Rep.Loop_body (withTransferResults f T) self w1 with ⟨r1, w3⟩
    rw [hb, hb1] at hs hr
    simp only [] at hs hr
    subst hr
    cases r1 with
    | ok u =>
      have e : Rep.Loop T self (n + 1) w = Rep.Loop T self n w2 := run_bind_ok _ _ w w2 u hb
      have e1 : Rep.Loop (withTransferResults f T) self (n + 1) w1 =
          Rep.Loop (withTransferResults f T) self n w3 := run_bind_ok _ _ w1 w3 u hb1
      rw [e, e1]
      exact ih w2 w3 hs
    | abort =>
      have e : Rep.Loop T self (n + 1) w = (Res.abort, w2) := run_bind_abort _ _ w w2 hb
      have e1 : Rep.Loop (withTransferResults f T) self (n + 1) w1 = (Res.abort, w3) :=
        run_bind_abort _ _ w1 w3 hb1
      rw [e, e1]
      exact ⟨hs, rfl⟩
    | block =>
      have e : Rep.Loop T self (n + 1) w = (Res.block, w2) := run_bind_block _ _ w w2 hb
      have e1 : Rep.Loop (withTransferResults f T) self (n + 1) w1 = (Res.block, w3) :=
        run_bind_block _ _ w1 w3 hb1
      rw [e, e1]
      exact ⟨hs, rfl⟩
    | undefined =>
      have e : Rep.Loop T self (n + 1) w = (Res.undefined, w2) :=
        run_bind_undefined _ _ w w2 hb
      have e1 : Rep.Loop (withTransferResults f T) self (n + 1) w1 = (Res.undefined, w3) :=
        run_bind_undefined _ _ w1 w3 hb1
      rw [e, e1]
      exact ⟨hs, rfl⟩

theorem Req_Loop_body_sameCalls {σ : Type} (f : Call → σ → Ret) (T : Transport σ) (self : Req)
    (s : Bytes) (w w1 : World σ) (h : SameCalls w w1) :
    SameCalls (Req.Loop_body T self s w).2
      (Req.Loop_body (withTransferResults f T) self s w1).2 ∧
    (Req.Loop_body (withTransferResults f T) self s w1).1 = (Req.Loop_body T self s w).1 := by
  obtain ⟨h1, h2, h3, h4, h5, h6⟩ := h
  have h2m : w1.trace.map Prod.fst = w.trace.map Prod.fst := h2
  simp only [Req.Loop_body, Req.Loop_request, Req.Loop_reply, zmq.Message.construct_data,
    zmq.Message.construct, zmq.Message.Send, zmq.Message.Recv, zmq.Message.data,
    zmq.Message.destroy, bind_assoc, pure_bind, call_bind, assert_bind, cin_read_bind,
    read_cstr_bind, World.after, withTransferResults_snd, h1, h3,
    withTransferResults_other f T (Call.zmq_msg_init _) _ rfl,
    withTransferResults_other f T (Call.zmq_msg_init_data _ _ _) _ rfl,
    withTransferResults_other f T (Call.zmq_msg_data _) _ rfl]
  split_ifs <;>
    simp [SameCalls, callsOf, run_pure, h1, h2m, h3, h4, h5, h6, withTransferResults_snd]

theorem Req_Loop_from_sameCalls {σ : Type} (f : Call → σ → Ret) (T : Transport σ) (self : Req)
    (n : Nat) (s : Bytes) (w w1 : World σ) (h : SameCalls w w1) :
    SameCalls (Req.Loop_from T self n s w).2
      (Req.Loop_from (withTransferResults f T) self n s w1).2 ∧
    (Req.Loop_from (withTransferResults f T) self n s w1).1 = (Req.Loop_from T self n s w).1 := by
  induction n generalizing s w w1 with
  | zero => exact ⟨h, rfl⟩
  | succ n ih =>
    obtain ⟨hs, hr⟩ := Req_Loop_body_sameCalls f T self s w w1 h
    rcases hb : Req.Loop_body T self s w with ⟨r, w2⟩
    rcases hb1 : Req.Loop_body (withTransferResults f T) self s w1 with ⟨r1, w3⟩
    rw [hb, hb1] at hs hr
    simp only [] at hs hr
    subst hr
    cases r1 with
    | ok u =>
      have e : Req.Loop_from T self (n + 1) s w = Req.Loop_from T self n u w2 :=
        run_bind_ok _ _ w w2 u hb
      have e1 : Req.Loop_from (withTransferResults f T) self (n + 1) s w1 =
          Req.Loop_from (withTransferResults f T) self n u w3 := run_bind_ok _ _ w1 w3 u hb1
      rw [e, e1]
      exact ih u w2 w3 hs
    | abort =>
      have e : Req.Loop_from T self (n + 1) s w = (Res.abort, w2) :=
        run_bind_abort _ _ w w2 hb
      have e1 : Req.Loop_from (withTransferResults f T) self (n + 1) s w1 = (Res.abort, w3) :=
        run_bind_abort _ _ w1 w3 hb1
      rw [e, e1]
      exact ⟨hs, rfl⟩
    | block =>
      have e : Req.Loop_from T self (n + 1) s w = (Res.block, w2) :=
        run_bind_block _ _ w w2 hb
      have e1 : Req.Loop_from (withTransferResults f T) self (n + 1) s w1 = (Res.block, w3) :=
        run_bind_block _ _ w1 w3 hb1
      rw [e, e1]
      exact ⟨hs, rfl⟩
    | undefined =>
      have e : Req.Loop_from T self (n + 1) s w = (Res.undefined, w2) :=
        run_bind_undefined _ _ w w2 hb
      have e1 : Req.Loop_from (withTransferResults f T) self (n + 1) s w1 =
          (Res.undefined, w3) := run_bind_undefined _ _ w1 w3 hb1
      rw [e, e1]
      exact ⟨hs, rfl⟩

/-- C5, as stated, fails. On `failingTransfers` every send and receive returns `-1`, yet:
the responder, whose receive failed, goes on to `zmq_msg_data` and to the send, whose failure
does not stop it either, and completes its turn; the requester, whose send failed, goes on to
the receive, and after the failed receive completes the turn and starts the next one. -/
theorem C5_counterexample :
    (Rep.Loop failingTransfers rep1 1 (World.start () [])).1 = Res.ok () ∧
    (Rep.Loop failingTransfers rep1 1 (World.start () [])).2.trace =
      [(Call.zmq_msg_init 1, { rc := 0, ptr := 1, mem := [] }),
       (Call.zmq_msg_recv 1 1 0, { rc := -1, ptr := 0, mem := [] }),
       (Call.zmq_msg_data 1, { rc := 0, ptr := 1, mem := [79, 75, 0] }),
       (Call.zmq_send 1 [79, 75, 0] 3 0, { rc := -1, ptr := 0, mem := [] }),
       (Call.zmq_msg_close 1, { rc := 0, ptr := 1, mem := [] })] ∧
    (Req.Loop failingTransfers req1 2 (World.start () [[104, 105]])).1 = Res.ok () ∧
    (Req.Loop failingTransfers req1 2 (World.start () [[104, 105]])).2.trace.take 9 =
      [(Call.zmq_msg_init_data 2 [104, 105, 0] 3, { rc := 0, ptr := 1, mem := [] }),
       (Call.zmq_msg_send 2 1 0, { rc := -1, ptr := 0, mem := [] }),
       (Call.zmq_msg_init 3, { rc := 0, ptr := 1, mem := [] }),
       (Call.zmq_msg_recv 3 1 0, { rc := -1, ptr := 0, mem := [] }),
       (Call.zmq_msg_data 3, { rc := 0, ptr := 1, mem := [79, 75, 0] }),
       (Call.zmq_msg_close 3, { rc := 0, ptr := 1, mem := [] }),
       (Call.zmq_msg_close 2, { rc := 0, ptr := 1, mem := [] }),
       (Call.zmq_msg_init_data 2 [104, 105, 0] 3, { rc := 0, ptr := 1, mem := [] }),
       (Call.zmq_msg_send 2 1 0, { rc := -1, ptr := 0, mem := [] })] := by
  refine ⟨?_, ?_, ?_, ?_⟩ <;> decide

/-- C5, amended. For every mock transport `T`, replace what its sends and receives return by
anything at all (`f`), `-1` included: `Rep::Loop` and `Req::Loop` end the same way and issue
exactly the same calls in the same order. The value returned by a send or a receive, a
reported failure included, has no effect on the worker. -/
theorem C5_transfer_results_are_ignored {σ : Type} (f : Call → σ → Ret) (T : Transport σ)
    (rep : Rep) (req : Req) (n : Nat) (st : σ) (input : List Bytes) :
    ((Rep.Loop (withTransferResults f T) rep n (World.start st input)).1 =
        (Rep.Loop T rep n (World.start st input)).1 ∧
      callsOf (Rep.Loop (withTransferResults f T) rep n (World.start st input)).2.trace =
        callsOf (Rep.Loop T rep n (World.start st input)).2.trace) ∧
    ((Req.Loop (withTransferResults f T) req n (World.start st input)).1 =
        (Req.Loop T req n (World.start st input)).1 ∧
      callsOf (Req.Loop (withTransferResults f T) req n (World.start st input)).2.trace =
        callsOf (Req.Loop T req n (World.start st input)).2.trace) := by
  obtain ⟨hs, hr⟩ := Rep_Loop_sameCalls f T rep n _ _ (SameCalls_refl (World.start st input))
  obtain ⟨hs1, hr1⟩ :=
    Req_Loop_from_sameCalls f T req n [] _ _ (SameCalls_refl (World.start st input))
  exact ⟨⟨hr, hs.2.1⟩, ⟨hr1, hs1.2.1⟩⟩


/-! ## The wiring of the two roles (C6) -/

theorem spawn_bind {σ β : Type} (t : Thread) (f : Unit → M σ β) (w : World σ) :
    (spawn t >>= f) w = f () { w with threads := w.threads ++ [t] } := by
  cases w with
  | mk st trace stdin stdout stderr threads => rfl

theorem blockForever_bind {σ β : Type} (f : Unit → M σ β) (w : World σ) :
    (blockForever >>= f) w = (Res.block, w) := rfl

theorem cerr_bind {σ β : Type} (x : Bytes) (f : Unit → M σ β) (w : World σ) :
    (cerr x >>= f) w = f () { w with stderr := w.stderr ++ [x] } := by
  cases w with
  | mk st trace stdin stdout stderr threads => rfl

/-- The main thread of `server` reaches its `Join` only with both sockets created and wired:
the calls are then the four wiring calls and the two workers run on the sockets created. -/
theorem server_wiring {σ : Type} (T : Transport σ) (zmq_ctx : zmq.Context) (st : σ)
    (input : List Bytes) (h : (server T zmq_ctx (World.start st input)).1 = Res.block) :
    ∃ repSocket reqSocket : Handle,
      callsOf (server T zmq_ctx (World.start st input)).2.trace =
        [Call.zmq_socket zmq_ctx.context_ ZMQ_REP,
         Call.zmq_bind repSocket "tcp://127.0.0.1:2222",
         Call.zmq_socket zmq_ctx.context_ ZMQ_REQ,
         Call.zmq_connect reqSocket "tcp://127.0.0.1:2223"] ∧
      (server T zmq_ctx (World.start st input)).2.threads =
        [Thread.Rep_Loop repSocket, Thread.Req_Loop reqSocket] := by
  simp only [server, Rep.construct, Req.construct, Rep.Bind, Req.Connect, Rep.Run, Req.Run,
    Rep.Join, Req.Join, zmq.Socket.construct, zmq.Socket.Bind, zmq.Socket.Connect,
    bind_assoc, pure_bind, call_bind, assert_bind, spawn_bind, blockForever_bind] at h ⊢
  split_ifs at h ⊢
  exact ⟨_, _, rfl, rfl⟩

/-- The main thread of `client` reaches its `Join` only with both sockets created and wired. -/
theorem client_wiring {σ : Type} (T : Transport σ) (zmq_ctx : zmq.Context) (st : σ)
    (input : List Bytes) (h : (client T zmq_ctx (World.start st input)).1 = Res.block) :
    ∃ reqSocket repSocket : Handle,
      callsOf (client T zmq_ctx (World.start st input)).2.trace =
        [Call.zmq_socket zmq_ctx.context_ ZMQ_REQ,
         Call.zmq_connect reqSocket "tcp://127.0.0.1:2222",
         Call.zmq_socket zmq_ctx.context_ ZMQ_REP,
         Call.zmq_bind repSocket "tcp://127.0.0.1:2223"] ∧
      (client T zmq_ctx (World.start st input)).2.threads =
        [Thread.Req_Loop reqSocket, Thread.Rep_Loop repSocket] := by
  simp only [client, Rep.construct, Req.construct, Rep.Bind, Req.Connect, Rep.Run, Req.Run,
    Rep.Join, Req.Join, zmq.Socket.construct, zmq.Socket.Bind, zmq.Socket.Connect,
    bind_assoc, pure_bind, call_bind, assert_bind, spawn_bind, blockForever_bind] at h ⊢
  split_ifs at h ⊢
  exact ⟨_, _, rfl, rfl⟩

/-- C6 (symmetric node wiring). Whenever the main thread of `server` and the main thread of
`client` (each on its own transport, in any state) get as far as waiting for their workers,
there are two distinct addresses A = tcp://127.0.0.1:2222 and B = tcp://127.0.0.1:2223 such
that: the server has issued exactly the calls create REP socket, bind it to A, create REQ
socket, connect it to B, and runs its responder on the socket bound to A and its requester on
the socket connected to B; the client has issued exactly create REQ socket, connect it to A,
create REP socket, bind it to B, and runs its requester on the socket connected to A and its
responder on the socket bound to B. So the server binds what the client connects to, the
client binds what the server connects to, and no node connects to the address it binds. -/
theorem C6_symmetric_wiring {σ₁ σ₂ : Type} (T₁ : Transport σ₁) (T₂ : Transport σ₂)
    (ctx₁ ctx₂ : zmq.Context) (st₁ : σ₁) (st₂ : σ₂) (in₁ in₂ : List Bytes)
    (hserver : (server T₁ ctx₁ (World.start st₁ in₁)).1 = Res.block)
    (hclient : (client T₂ ctx₂ (World.start st₂ in₂)).1 = Res.block) :
    ∃ (A B : String) (serverRep serverReq clientReq clientRep : Handle),
      A = "tcp://127.0.0.1:2222" ∧ B = "tcp://127.0.0.1:2223" ∧ A ≠ B ∧
      callsOf (server T₁ ctx₁ (World.start st₁ in₁)).2.trace =
        [Call.zmq_socket ctx₁.context_ ZMQ_REP, Call.zmq_bind serverRep A,
         Call.zmq_socket ctx₁.context_ ZMQ_REQ, Call.zmq_connect serverReq B] ∧
      (server T₁ ctx₁ (World.start st₁ in₁)).2.threads =
        [Thread.Rep_Loop serverRep, Thread.Req_Loop serverReq] ∧
      callsOf (client T₂ ctx₂ (World.start st₂ in₂)).2.trace =
        [Call.zmq_socket ctx₂.context_ ZMQ_REQ, Call.zmq_connect clientReq A,
         Call.zmq_socket ctx₂.context_ ZMQ_REP, Call.zmq_bind clientRep B] ∧
      (client T₂ ctx₂ (World.start st₂ in₂)).2.threads =
        [Thread.Req_Loop clientReq, Thread.Rep_Loop clientRep] := by
  obtain ⟨sRep, sReq, hs1, hs2⟩ := server_wiring T₁ ctx₁ st₁ in₁ hserver
  obtain ⟨cReq, cRep, hc1, hc2⟩ := client_wiring T₂ ctx₂ st₂ in₂ hclient
  exact ⟨_, _, sRep, sReq, cReq, cRep, rfl, rfl, by decide, hs1, hs2, hc1, hc2⟩

/-- C6 at a concrete input: both roles on the faithful transport, context handle `1`. -/
theorem C6_symmetric_wiring_witness :
    (server faithful { context_ := 1 } (World.start Net.withContext [])).1 = Res.block ∧
    (client faithful { context_ := 1 } (World.start Net.withContext [])).1 = Res.block ∧
    ∃ (A B : String) (serverRep serverReq clientReq clientRep : Handle),
      A = "tcp://127.0.0.1:2222" ∧ B = "tcp://127.0.0.1:2223" ∧ A ≠ B ∧
      callsOf (server faithful { context_ := 1 } (World.start Net.withContext [])).2.trace =
        [Call.zmq_socket 1 ZMQ_REP, Call.zmq_bind serverRep A,
         Call.zmq_socket 1 ZMQ_REQ, Call.zmq_connect serverReq B] ∧
      (server faithful { context_ := 1 } (World.start Net.withContext [])).2.threads =
        [Thread.Rep_Loop serverRep, Thread.Req_Loop serverReq] ∧
      callsOf (client faithful { context_ := 1 } (World.start Net.withContext [])).2.trace =
        [Call.zmq_socket 1 ZMQ_REQ, Call.zmq_connect clientReq A,
         Call.zmq_socket 1 ZMQ_REP, Call.zmq_bind clientRep B] ∧
      (client faithful { context_ := 1 } (World.start Net.withContext [])).2.threads =
        [Thread.Req_Loop clientReq, Thread.Rep_Loop clientRep] :=
  ⟨by decide, by decide,
    C6_symmetric_wiring faithful faithful { context_ := 1 } { context_ := 1 } Net.withContext
      Net.withContext [] [] (by decide) (by decide)⟩

/-! ## A null context handle stops the program at once (C7) -/

/-- C7 (fatal failure at context creation). On every transport whose `zmq_ctx_new` returns
the null handle, whatever the arguments and the input, the program is aborted by the assertion
of the `Context` constructor: `zmq_ctx_new` is the only call ever issued (no socket is
created, nothing is bound, connected, sent, received or closed), no worker thread is started
and nothing is printed. -/
theorem C7_null_context_aborts {σ : Type} (T : Transport σ) (argv : List String) (st : σ)
    (input : List Bytes) (hnull : (T Call.zmq_ctx_new st).1.ptr = 0) :
    (program T argv (World.start st input)).1 = Res.abort ∧
    callsOf (program T argv (World.start st input)).2.trace = [Call.zmq_ctx_new] ∧
    (program T argv (World.start st input)).2.threads = [] ∧
    (program T argv (World.start st input)).2.stdout = [] := by
  simp only [program, zmq.Context.construct, bind_assoc, pure_bind, call_bind, assert_bind]
  simp [hnull, World.after, World.start, callsOf]

/-- C7 at a concrete input: the transport that refuses everything, role `server`. -/
theorem C7_null_context_aborts_witness :
    (refusing Call.zmq_ctx_new ()).1.ptr = 0 ∧
    (program refusing ["zmq-cpp", "server"] (World.start () [])).1 = Res.abort ∧
    callsOf (program refusing ["zmq-cpp", "server"] (World.start () [])).2.trace =
      [Call.zmq_ctx_new] ∧
    (program refusing ["zmq-cpp", "server"] (World.start () [])).2.threads = [] ∧
    (program refusing ["zmq-cpp", "server"] (World.start () [])).2.stdout = [] :=
  ⟨rfl, C7_null_context_aborts refusing ["zmq-cpp", "server"] () [] rfl⟩


/-! ## One initialisation and one close per `zmq::Message` (C8) -/

theorem MessageMode_construct_eq {σ : Type} (T : Transport σ) (addr : MsgAddr)
    (mode : MessageMode) :
    MessageMode.construct T addr mode =
      (do
        let r ← call T (mode.initCall addr)
        assert (r.rc == 0)
        pure { message_ := addr }) := by
  cases mode <;> rfl

theorem MessageMode_initCall_isMsgInit (addr : MsgAddr) (mode : MessageMode) :
    (mode.initCall addr).isMsgInit addr = true ∧ (mode.initCall addr).isMsgClose addr = false ∧
      (mode.initCall addr).onMessage addr = true := by
  cases mode <;> simp [MessageMode.initCall, Call.isMsgInit, Call.isMsgClose, Call.onMessage]

/-- A method call on a live message adds calls that neither initialise nor close it, and
never blocks. -/
theorem MessageUse_perform_spec {σ : Type} (T : Transport σ) (message : zmq.Message)
    (u : MessageUse) (w : World σ) :
    ∃ evs, (MessageUse.perform T message u w).2.trace = w.trace ++ evs ∧
      (∀ e ∈ evs, e.1.isMsgInit message.message_ = false ∧
        e.1.isMsgClose message.message_ = false) ∧
      ((MessageUse.perform T message u w).1 ≠ Res.block ∧
        (MessageUse.perform T message u w).1 ≠ Res.undefined) := by
  cases u with
  | data =>
    simp only [MessageUse.perform, zmq.Message.data, bind_assoc, pure_bind, call_bind,
      assert_bind]
    split_ifs
    · exact ⟨[_], rfl, by simp [Call.isMsgInit, Call.isMsgClose], by simp [run_pure]⟩
    · exact ⟨[_], rfl, by simp [Call.isMsgInit, Call.isMsgClose], by simp⟩
  | Recv socket flags =>
    simp only [MessageUse.perform, zmq.Message.Recv, bind_assoc, pure_bind, call_bind]
    exact ⟨[_], rfl, by simp [Call.isMsgInit, Call.isMsgClose], by simp [run_pure]⟩
  | Send socket flags =>
    simp only [MessageUse.perform, zmq.Message.Send, bind_assoc, pure_bind, call_bind]
    exact ⟨[_], rfl, by simp [Call.isMsgInit, Call.isMsgClose], by simp [run_pure]⟩

theorem MessageUse_performAll_spec {σ : Type} (T : Transport σ) (message : zmq.Message)
    (us : List MessageUse) (w : World σ) :
    ∃ evs, (MessageUse.performAll T message us w).2.trace = w.trace ++ evs ∧
      (∀ e ∈ evs, e.1.isMsgInit message.message_ = false ∧
        e.1.isMsgClose message.message_ = false) ∧
      ((MessageUse.performAll T message us w).1 ≠ Res.block ∧
        (MessageUse.performAll T message us w).1 ≠ Res.undefined) := by
  induction us generalizing w with
  | nil => exact ⟨[], by simp [MessageUse.performAll, run_pure], by simp, by simp [MessageUse.performAll, run_pure]⟩
  | cons u us ih =>
    obtain ⟨evs1, h1, h2, h3⟩ := MessageUse_perform_spec T message u w
    rcases hb : MessageUse.perform T message u w with ⟨r, w1⟩
    rw [hb] at h1 h3
    cases r with
    | ok a =>
      have e : MessageUse.performAll T message (u :: us) w =
          MessageUse.performAll T message us w1 := run_bind_ok _ _ w w1 a hb
      obtain ⟨evs2, g1, g2, g3⟩ := ih w1
      refine ⟨evs1 ++ evs2, ?_, ?_, ?_⟩
      · rw [e, g1, h1, List.append_assoc]
      · intro x hx
        rcases List.mem_append.mp hx with hx | hx
        · exact h2 x hx
        · exact g2 x hx
      · rw [e]
        exact g3
    | abort =>
      have e : MessageUse.performAll T message (u :: us) w = (Res.abort, w1) :=
        run_bind_abort _ _ w w1 hb
      refine ⟨evs1, ?_, h2, ?_⟩
      · rw [e]
        exact h1
      · rw [e]
        simp
    | block => exact absurd rfl h3.1
    | undefined => exact absurd rfl h3.2

theorem destroy_run {σ : Type} (T : Transport σ) (message : zmq.Message) (w : World σ) :
    zmq.Message.destroy T message w =
      (Res.ok (), w.after T (Call.zmq_msg_close message.message_)) := by
  simp only [zmq.Message.destroy, call_bind, run_pure]

/-- A lifetime cut short never closes the message: when the lifetime does not run to its
destruction, it was aborted by a failed assertion (of the constructor or of `data`), the
process is gone, and the trace holds the initialising call and no `zmq_msg_close`. -/
theorem messageLifetime_cut_short {σ : Type} (T : Transport σ) (addr : MsgAddr)
    (mode : MessageMode) (uses : List MessageUse) (w : World σ)
    (hcut : (messageLifetime T addr mode uses w).1 ≠ Res.ok ()) :
    (messageLifetime T addr mode uses w).1 = Res.abort ∧
    (callsOf (newEvents w (messageLifetime T addr mode uses w).2)).countP
      (Call.isMsgInit addr) = 1 ∧
    (callsOf (newEvents w (messageLifetime T addr mode uses w).2)).countP
      (Call.isMsgClose addr) = 0 := by
  obtain ⟨hi1, hi2, _⟩ := MessageMode_initCall_isMsgInit addr mode
  unfold messageLifetime at hcut ⊢
  rw [MessageMode_construct_eq] at hcut ⊢
  simp only [bind_assoc, pure_bind, call_bind, assert_bind] at hcut ⊢
  split_ifs at hcut ⊢ with hrc
  · obtain ⟨evs, h1, h2, h3⟩ := MessageUse_performAll_spec T { message_ := addr } uses
      (w.after T (mode.initCall addr))
    rcases hb : MessageUse.performAll T { message_ := addr } uses
      (w.after T (mode.initCall addr)) with ⟨r, w2⟩
    rw [hb] at h1 h3
    cases r with
    | ok a =>
      rw [run_bind_ok _ _ _ w2 a hb, destroy_run] at hcut
      exact absurd rfl hcut
    | abort =>
      rw [run_bind_abort _ _ _ w2 hb]
      simp only [] at h1
      have hm1 : (callsOf evs).countP (Call.isMsgInit addr) = 0 :=
        List.countP_eq_zero.mpr (fun c hc => by
          obtain ⟨e, he, rfl⟩ := List.mem_map.mp hc
          simp [(h2 e he).1])
      have hm2 : (callsOf evs).countP (Call.isMsgClose addr) = 0 :=
        List.countP_eq_zero.mpr (fun c hc => by
          obtain ⟨e, he, rfl⟩ := List.mem_map.mp hc
          simp [(h2 e he).2])
      have hev : newEvents w w2 = (mode.initCall addr, (T (mode.initCall addr) w.st).1) :: evs := by
        simp [newEvents, h1, World.after]
      refine ⟨rfl, ?_, ?_⟩
      · simp only [hev]
        simpa [callsOf, List.countP_cons, hi1] using hm1
      · simp only [hev]
        simpa [callsOf, List.countP_cons, hi2] using hm2
    | block => exact absurd rfl h3.1
    | undefined => exact absurd rfl h3.2
  · refine ⟨rfl, ?_, ?_⟩
    · simp [newEvents, World.after, callsOf, List.countP_cons, hi1]
    · simp [newEvents, World.after, callsOf, List.countP_cons, hi2]

theorem socketMonitor_append (opened : List Handle) (a b : List (Call × Ret)) :
    socketMonitor opened (a ++ b) =
      (socketMonitor opened a).bind (fun opened1 => socketMonitor opened1 b) := by
  induction a generalizing opened with
  | nil => rfl
  | cons e a ih =>
    simp only [List.cons_append, socketMonitor]
    cases h : socketMonitorStep opened e with
    | none => rfl
    | some opened1 => exact ih opened1

/-- A trace the monitor accepts is accepted at each of its beginnings. -/
theorem socketMonitor_take (opened : List Handle) (tr : List (Call × Ret))
    (h : (socketMonitor opened tr).isSome = true) (k : Nat) :
    (socketMonitor opened (tr.take k)).isSome = true := by
  have e : tr = tr.take k ++ tr.drop k := (List.take_append_drop k tr).symm
  rw [e, socketMonitor_append] at h
  cases hk : socketMonitor opened (tr.take k) with
  | none => simp [hk] at h
  | some o => rfl

theorem perm_cons_eraseIdx {α : Type} (l : List α) (i : Nat) (a : α) (h : l[i]? = some a) :
    l.Perm (a :: l.eraseIdx i) := by
  induction l generalizing i with
  | nil => simp at h
  | cons b l ih =>
    cases i with
    | zero =>
      simp at h
      subst h
      exact List.Perm.refl _
    | succ i =>
      simp only [List.getElem?_cons_succ] at h
      simp only [List.eraseIdx_cons_succ]
      exact (List.Perm.cons b (ih i h)).trans (List.Perm.swap a b _)

theorem length_of_getElem? {α : Type} (l : List α) (i : Nat) (a : α) (h : l[i]? = some a) :
    (l.eraseIdx i).length + 1 = l.length := by
  have := (perm_cons_eraseIdx l i a h).length_eq
  simp at this
  omega

/-- A method call on a live socket issues one call on its handle, and never blocks. -/
theorem SocketUse_perform_spec {σ : Type} (T : Transport σ) (socket : zmq.Socket)
    (u : SocketUse) (w : World σ) (opened : List Handle) (hopen : socket.socket_ ∈ opened) :
    ∃ evs, (SocketUse.perform T socket u w).2.trace = w.trace ++ evs ∧
      socketMonitor opened evs = some opened ∧ socketCreates evs = 0 ∧ socketCloses evs = 0 ∧
      ((SocketUse.perform T socket u w).1 ≠ Res.block ∧
        (SocketUse.perform T socket u w).1 ≠ Res.undefined) := by
  cases u with
  | Bind endpoint =>
    simp only [SocketUse.perform, zmq.Socket.Bind, bind_assoc, pure_bind, call_bind,
      assert_bind]
    split_ifs <;>
      exact ⟨[_], rfl, by simp [socketMonitor, socketMonitorStep, hopen], rfl, rfl,
        by simp [run_pure]⟩
  | Connect endpoint =>
    simp only [SocketUse.perform, zmq.Socket.Connect, bind_assoc, pure_bind, call_bind,
      assert_bind]
    split_ifs <;>
      exact ⟨[_], rfl, by simp [socketMonitor, socketMonitorStep, hopen], rfl, rfl,
        by simp [run_pure]⟩
  | Send buf len flags =>
    simp only [SocketUse.perform, zmq.Socket.Send, bind_assoc, pure_bind, call_bind]
    exact ⟨[_], rfl, by simp [socketMonitor, socketMonitorStep, hopen], rfl, rfl,
      by simp [run_pure]⟩
  | Recv len flags =>
    simp only [SocketUse.perform, zmq.Socket.Recv, bind_assoc, pure_bind, call_bind]
    exact ⟨[_], rfl, by simp [socketMonitor, socketMonitorStep, hopen], rfl, rfl,
      by simp [run_pure]⟩
  | getsockopt option_name option_value option_len =>
    simp only [SocketUse.perform, zmq.Socket.getsockopt, bind_assoc, pure_bind, call_bind]
    exact ⟨[_], rfl, by simp [socketMonitor, socketMonitorStep, hopen], rfl, rfl,
      by simp [run_pure]⟩
  | setsockopt option_name option_value option_len =>
    simp only [SocketUse.perform, zmq.Socket.setsockopt, bind_assoc, pure_bind, call_bind]
    exact ⟨[_], rfl, by simp [socketMonitor, socketMonitorStep, hopen], rfl, rfl,
      by simp [run_pure]⟩

/-- One step keeps the monitor satisfied, and when it completes the handles the monitor holds
open are those of the live sockets. -/
theorem SocketStep_perform_spec {σ : Type} (T : Transport σ) (context : Handle)
    (live : List zmq.Socket) (step : SocketStep) (w : World σ) (opened : List Handle)
    (hperm : opened.Perm (live.map (fun s => s.socket_))) :
    ∃ evs opened1, (SocketStep.perform T context live step w).2.trace = w.trace ++ evs ∧
      socketMonitor opened evs = some opened1 ∧
      ((SocketStep.perform T context live step w).1 ≠ Res.block ∧
        (SocketStep.perform T context live step w).1 ≠ Res.undefined) ∧
      ∀ live1, (SocketStep.perform T context live step w).1 = Res.ok live1 →
        opened1.Perm (live1.map (fun s => s.socket_)) ∧
        socketCreates evs + live.length = socketCloses evs + live1.length := by
  cases step with
  | construct type =>
    simp only [SocketStep.perform, zmq.Socket.construct, bind_assoc, pure_bind, call_bind,
      assert_bind]
    split_ifs with hp
    · have hne : (T (Call.zmq_socket context type) w.st).1.ptr ≠ 0 := by simpa using hp
      refine ⟨[_], (T (Call.zmq_socket context type) w.st).1.ptr :: opened, rfl, ?_, ?_, ?_⟩
      · simp [socketMonitor, socketMonitorStep, hne]
      · simp [run_pure]
      · intro live1 h
        simp only [run_pure, Res.ok.injEq] at h
        subst h
        constructor
        · simp only [List.map_append, List.map_cons, List.map_nil]
          exact (List.Perm.cons _ hperm).trans (List.perm_append_singleton _ _).symm
        · simp [socketCreates, socketCloses, callsOf, Call.isSocketCreate, Call.isSocketClose]
          omega
    · have h0 : (T (Call.zmq_socket context type) w.st).1.ptr = 0 := by simpa using hp
      refine ⟨[_], opened, rfl, ?_, ?_, ?_⟩
      · simp [socketMonitor, socketMonitorStep, h0]
      · simp
      · intro live1 h
        simp at h
  | use i u =>
    simp only [SocketStep.perform]
    cases hi : live[i]? with
    | none =>
      refine ⟨[], opened, by simp [run_pure], rfl, by simp [run_pure], ?_⟩
      intro live1 h
      simp only [run_pure, Res.ok.injEq] at h
      subst h
      exact ⟨hperm, rfl⟩
    | some socket =>
      have hmem : socket.socket_ ∈ opened :=
        hperm.mem_iff.mpr (List.mem_map.mpr ⟨socket, List.getElem?_mem hi, rfl⟩)
      obtain ⟨evs, h1, h2, h3, h4, h5⟩ := SocketUse_perform_spec T socket u w opened hmem
      simp only []
      rcases hb : SocketUse.perform T socket u w with ⟨r, w1⟩
      rw [hb] at h1 h5
      cases r with
      | ok a =>
        rw [run_bind_ok _ _ w w1 a hb]
        refine ⟨evs, opened, h1, h2, by simp [run_pure], ?_⟩
        intro live1 h
        simp only [run_pure, Res.ok.injEq] at h
        subst h
        exact ⟨hperm, by rw [h3, h4]⟩
      | abort =>
        rw [run_bind_abort _ _ w w1 hb]
        refine ⟨evs, opened, h1, h2, by simp, ?_⟩
        intro live1 h
        simp at h
      | block => exact absurd rfl h5.1
      | undefined => exact absurd rfl h5.2
  | destroy i =>
    simp only [SocketStep.perform]
    cases hi : live[i]? with
    | none =>
      refine ⟨[], opened, by simp [run_pure], rfl, by simp [run_pure], ?_⟩
      intro live1 h
      simp only [run_pure, Res.ok.injEq] at h
      subst h
      exact ⟨hperm, rfl⟩
    | some socket =>
      have hmem : socket.socket_ ∈ opened :=
        hperm.mem_iff.mpr (List.mem_map.mpr ⟨socket, List.getElem?_mem hi, rfl⟩)
      simp only [zmq.Socket.destroy, bind_assoc, pure_bind, call_bind]
      refine ⟨[_], opened.erase socket.socket_, rfl, ?_, by simp [run_pure], ?_⟩
      · simp [socketMonitor, socketMonitorStep, hmem]
      · intro live1 h
        simp only [run_pure, Res.ok.injEq] at h
        subst h
        constructor
        · have hp1 : (live.map (fun s => s.socket_)).Perm
              (socket.socket_ :: (live.eraseIdx i).map (fun s => s.socket_)) :=
            (perm_cons_eraseIdx live i socket hi).map (fun s => s.socket_)
          have hp2 := (hperm.trans hp1).erase socket.socket_
          simpa using hp2
        · have hlen := length_of_getElem? live i socket hi
          simp [socketCreates, socketCloses, callsOf, Call.isSocketCreate, Call.isSocketClose]
          omega

theorem socketCreates_append (a b : List (Call × Ret)) :
    socketCreates (a ++ b) = socketCreates a + socketCreates b := by
  simp [socketCreates, callsOf, List.countP_append]

theorem socketCloses_append (a b : List (Call × Ret)) :
    socketCloses (a ++ b) = socketCloses a + socketCloses b := by
  simp [socketCloses, callsOf, List.countP_append]

/-- A whole script keeps the monitor satisfied; when it completes, the handles the monitor
holds open are those of the live sockets and the calls are balanced up to the live sockets. -/
theorem SocketStep_performAll_spec {σ : Type} (T : Transport σ) (context : Handle)
    (steps : List SocketStep) (live : List zmq.Socket) (w : World σ) (opened : List Handle)
    (hperm : opened.Perm (live.map (fun s => s.socket_))) :
    ∃ evs opened1, (SocketStep.performAll T context steps live w).2.trace = w.trace ++ evs ∧
      socketMonitor opened evs = some opened1 ∧
      ∀ live1, (SocketStep.performAll T context steps live w).1 = Res.ok live1 →
        opened1.Perm (live1.map (fun s => s.socket_)) ∧
        socketCreates evs + live.length = socketCloses evs + live1.length := by
  induction steps generalizing live w opened with
  | nil =>
    refine ⟨[], opened, by simp [SocketStep.performAll, run_pure], rfl, ?_⟩
    intro live1 h
    simp only [SocketStep.performAll, run_pure, Res.ok.injEq] at h
    subst h
    exact ⟨hperm, rfl⟩
  | cons step steps ih =>
    obtain ⟨evs1, opened1, h1, h2, h3, h4⟩ :=
      SocketStep_perform_spec T context live step w opened hperm
    rcases hb : SocketStep.perform T context live step w with ⟨r, w1⟩
    rw [hb] at h1 h3 h4
    cases r with
    | ok live1 =>
      obtain ⟨hp1, hc1⟩ := h4 live1 rfl
      obtain ⟨evs2, opened2, g1, g2, g3⟩ := ih live1 w1 opened1 hp1
      have e : SocketStep.performAll T context (step :: steps) live w =
          SocketStep.performAll T context steps live1 w1 := run_bind_ok _ _ w w1 live1 hb
      rw [e]
      refine ⟨evs1 ++ evs2, opened2, ?_, ?_, ?_⟩
      · rw [g1, h1, List.append_assoc]
      · rw [socketMonitor_append, h2]
        exact g2
      · intro live2 h
        obtain ⟨hp2, hc2⟩ := g3 live2 h
        refine ⟨hp2, ?_⟩
        rw [socketCreates_append, socketCloses_append]
        omega
    | abort =>
      have e : SocketStep.performAll T context (step :: steps) live w = (Res.abort, w1) :=
        run_bind_abort _ _ w w1 hb
      rw [e]
      refine ⟨evs1, opened1, h1, h2, ?_⟩
      intro live1 h
      simp at h
    | block => exact absurd rfl h3.1
    | undefined => exact absurd rfl h3.2

/-- A method call on a live socket returns, unless the assertion of `Bind` or `Connect`
fails on the result of the call just issued. -/
theorem SocketUse_perform_ends {σ : Type} (T : Transport σ) (socket : zmq.Socket)
    (u : SocketUse) (w : World σ) :
    (SocketUse.perform T socket u w).1 = Res.ok () ∨
    ((SocketUse.perform T socket u w).1 = Res.abort ∧
      ∃ e, (SocketUse.perform T socket u w).2.trace.getLast? = some e ∧
        failedAssertion e = true) := by
  cases u with
  | Bind endpoint =>
    simp only [SocketUse.perform, zmq.Socket.Bind, bind_assoc, pure_bind, call_bind,
      assert_bind]
    split_ifs with h
    · exact Or.inl rfl
    · refine Or.inr ⟨rfl, (Call.zmq_bind socket.socket_ endpoint,
        (T (Call.zmq_bind socket.socket_ endpoint) w.st).1), by simp [World.after], ?_⟩
      simpa [failedAssertion] using h
  | Connect endpoint =>
    simp only [SocketUse.perform, zmq.Socket.Connect, bind_assoc, pure_bind, call_bind,
      assert_bind]
    split_ifs with h
    · exact Or.inl rfl
    · refine Or.inr ⟨rfl, (Call.zmq_connect socket.socket_ endpoint,
        (T (Call.zmq_connect socket.socket_ endpoint) w.st).1), by simp [World.after], ?_⟩
      simpa [failedAssertion] using h
  | Send buf len flags => exact Or.inl rfl
  | Recv len flags => exact Or.inl rfl
  | getsockopt option_name option_value option_len => exact Or.inl rfl
  | setsockopt option_name option_value option_len => exact Or.inl rfl

/-- One step returns, unless an assertion fails on the result of the call just issued. In
particular a destruction always returns. -/
theorem SocketStep_perform_ends {σ : Type} (T : Transport σ) (context : Handle)
    (live : List zmq.Socket) (step : SocketStep) (w : World σ) :
    (∃ live1, (SocketStep.perform T context live step w).1 = Res.ok live1) ∨
    ((SocketStep.perform T context live step w).1 = Res.abort ∧
      ∃ e, (SocketStep.perform T context live step w).2.trace.getLast? = some e ∧
        failedAssertion e = true) := by
  cases step with
  | construct type =>
    simp only [SocketStep.perform, zmq.Socket.construct, bind_assoc, pure_bind, call_bind,
      assert_bind]
    split_ifs with h
    · exact Or.inl ⟨_, rfl⟩
    · refine Or.inr ⟨rfl, (Call.zmq_socket context type,
        (T (Call.zmq_socket context type) w.st).1), by simp [World.after], ?_⟩
      simpa [failedAssertion] using h
  | use i u =>
    simp only [SocketStep.perform]
    cases hi : live[i]? with
    | none => exact Or.inl ⟨_, rfl⟩
    | some socket =>
      simp only []
      rcases SocketUse_perform_ends T socket u w with h | ⟨h, e, he, hf⟩
      · rcases hb : SocketUse.perform T socket u w with ⟨r, w1⟩
        rw [hb] at h
        simp only [] at h
        subst h
        rw [run_bind_ok _ _ w w1 () hb]
        exact Or.inl ⟨_, rfl⟩
      · rcases hb : SocketUse.perform T socket u w with ⟨r, w1⟩
        rw [hb] at h he
        simp only [] at h he
        subst h
        rw [run_bind_abort _ _ w w1 hb]
        exact Or.inr ⟨rfl, e, he, hf⟩
  | destroy i =>
    simp only [SocketStep.perform]
    cases hi : live[i]? with
    | none => exact Or.inl ⟨_, rfl⟩
    | some socket => exact Or.inl ⟨_, rfl⟩

/-- A whole script runs to its end, unless an assertion fails on the result of the call just
issued, which is then the last call of the run. -/
theorem SocketStep_performAll_ends {σ : Type} (T : Transport σ) (context : Handle)
    (steps : List SocketStep) (live : List zmq.Socket) (w : World σ) :
    (∃ live1, (SocketStep.performAll T context steps live w).1 = Res.ok live1) ∨
    ((SocketStep.performAll T context steps live w).1 = Res.abort ∧
      ∃ e, (SocketStep.performAll T context steps live w).2.trace.getLast? = some e ∧
        failedAssertion e = true) := by
  induction steps generalizing live w with
  | nil => exact Or.inl ⟨live, rfl⟩
  | cons step steps ih =>
    rcases hb : SocketStep.perform T context live step w with ⟨r, w1⟩
    rcases SocketStep_perform_ends T context live step w with ⟨live1, h⟩ | ⟨h, e, he, hf⟩
    · rw [hb] at h
      simp only [] at h
      subst h
      have e : SocketStep.performAll T context (step :: steps) live w =
          SocketStep.performAll T context steps live1 w1 := run_bind_ok _ _ w w1 live1 hb
      rw [e]
      exact ih live1 w1
    · rw [hb] at h he
      simp only [] at h he
      subst h
      have e1 : SocketStep.performAll T context (step :: steps) live w = (Res.abort, w1) :=
        run_bind_abort _ _ w w1 hb
      rw [e1]
      exact Or.inr ⟨rfl, e, he, hf⟩

/-- C9 (socket lifecycle without leak). For every sequence of constructions, uses and
destructions of `zmq::Socket` objects under one context, over every mock transport:
at every point of the run (the first `k` entries of the trace, for every `k`) the monitor of
endpoint handles is satisfied, that is, `zmq_close` is only ever called on a handle that a
`zmq_socket` call returned and that has not been closed since, and no closed handle is used;
when the run completes with the sockets `live` still alive, the number of `zmq_socket` calls
is the number of `zmq_close` calls plus the number of live sockets; so once every socket is
destroyed the two numbers are equal; and the run does complete, destructions included, unless
an assertion of a constructor, of `Bind` or of `Connect` fails on the result of the last call
issued (a null socket handle, a `-1`), which aborts the process. -/
theorem C9_socket_closed_exactly_once {σ : Type} (T : Transport σ) (context : Handle)
    (steps : List SocketStep) (st : σ) (input : List Bytes) :
    (∀ k, (socketMonitor []
      ((SocketStep.performAll T context steps [] (World.start st input)).2.trace.take k)).isSome
        = true) ∧
    (∀ live, (SocketStep.performAll T context steps [] (World.start st input)).1 = Res.ok live →
      socketCreates (SocketStep.performAll T context steps [] (World.start st input)).2.trace =
        socketCloses (SocketStep.performAll T context steps [] (World.start st input)).2.trace
          + live.length) ∧
    ((SocketStep.performAll T context steps [] (World.start st input)).1 = Res.ok [] →
      socketCreates (SocketStep.performAll T context steps [] (World.start st input)).2.trace =
        socketCloses (SocketStep.performAll T context steps [] (World.start st input)).2.trace) ∧
    ((∃ live, (SocketStep.performAll T context steps [] (World.start st input)).1 = Res.ok live) ∨
      ((SocketStep.performAll T context steps [] (World.start st input)).1 = Res.abort ∧
        ∃ e, (SocketStep.performAll T context steps [] (World.start st input)).2.trace.getLast? =
            some e ∧ failedAssertion e = true)) := by
  obtain ⟨evs, opened1, h1, h2, h3⟩ :=
    SocketStep_performAll_spec T context steps [] (World.start st input) [] (List.Perm.refl _)
  have htr : (SocketStep.performAll T context steps [] (World.start st input)).2.trace = evs := by
    rw [h1]
    rfl
  refine ⟨?_, ?_, ?_, SocketStep_performAll_ends T context steps [] (World.start st input)⟩
  · intro k
    rw [htr]
    exact socketMonitor_take [] evs (by rw [h2]; rfl) k
  · intro live h
    rw [htr]
    have := (h3 live h).2
    simpa using this
  · intro h
    rw [htr]
    have := (h3 [] h).2
    simpa using this

/-- C9 at a concrete input, on the transport `counting` (context handle 7): two sockets are
constructed, the first is bound, the second sends, both are destroyed. The run completes with
no socket left alive; its calls are the two `zmq_socket`, the `zmq_bind`, the `zmq_send` and
one `zmq_close` for each of the two handles created; creations and closes are two each. -/
theorem C9_socket_closed_exactly_once_witness :
    (SocketStep.performAll counting 7
      [SocketStep.construct ZMQ_REP, SocketStep.construct ZMQ_REQ,
       SocketStep.use 0 (SocketUse.Bind "tcp://127.0.0.1:2222"),
       SocketStep.use 1 (SocketUse.Send [104, 0] 2 0),
       SocketStep.destroy 0, SocketStep.destroy 0] [] (World.start 0 [])).1 = Res.ok [] ∧
    callsOf (SocketStep.performAll counting 7
      [SocketStep.construct ZMQ_REP, SocketStep.construct ZMQ_REQ,
       SocketStep.use 0 (SocketUse.Bind "tcp://127.0.0.1:2222"),
       SocketStep.use 1 (SocketUse.Send [104, 0] 2 0),
       SocketStep.destroy 0, SocketStep.destroy 0] [] (World.start 0 [])).2.trace =
      [Call.zmq_socket 7 4, Call.zmq_socket 7 3, Call.zmq_bind 1 "tcp://127.0.0.1:2222",
       Call.zmq_send 2 [104, 0] 2 0, Call.zmq_close 1, Call.zmq_close 2] ∧
    socketCloses (SocketStep.performAll counting 7
      [SocketStep.construct ZMQ_REP, SocketStep.construct ZMQ_REQ,
       SocketStep.use 0 (SocketUse.Bind "tcp://127.0.0.1:2222"),
       SocketStep.use 1 (SocketUse.Send [104, 0] 2 0),
       SocketStep.destroy 0, SocketStep.destroy 0] [] (World.start 0 [])).2.trace = 2 ∧
    socketCreates (SocketStep.performAll counting 7
      [SocketStep.construct ZMQ_REP, SocketStep.construct ZMQ_REQ,
       SocketStep.use 0 (SocketUse.Bind "tcp://127.0.0.1:2222"),
       SocketStep.use 1 (SocketUse.Send [104, 0] 2 0),
       SocketStep.destroy 0, SocketStep.destroy 0] [] (World.start 0 [])).2.trace =
      socketCloses (SocketStep.performAll counting 7
        [SocketStep.construct ZMQ_REP, SocketStep.construct ZMQ_REQ,
         SocketStep.use 0 (SocketUse.Bind "tcp://127.0.0.1:2222"),
         SocketStep.use 1 (SocketUse.Send [104, 0] 2 0),
         SocketStep.destroy 0, SocketStep.destroy 0] [] (World.start 0 [])).2.trace :=
  ⟨by decide, by decide, by decide,
    (C9_socket_closed_exactly_once counting 7
      [SocketStep.construct ZMQ_REP, SocketStep.construct ZMQ_REQ,
       SocketStep.use 0 (SocketUse.Bind "tcp://127.0.0.1:2222"),
       SocketStep.use 1 (SocketUse.Send [104, 0] 2 0),
       SocketStep.destroy 0, SocketStep.destroy 0] 0 []).2.2.1 (by decide)⟩

/-! ## `getsockopt` sets the option (C10) -/

/-- C10, the code at a concrete input. `Socket::getsockopt` on the socket `1`, with option
name 27 and the four bytes 100, 0, 0, 0, issues the single call `zmq_setsockopt` with these
arguments, and on a transport that stores options the option is stored: the option state was
empty before the call and holds the value after it. The call is in no way different from
`Socket::setsockopt` with the same arguments. -/
theorem C10_getsockopt_issues_setsockopt :
    (zmq.Socket.getsockopt optionStore { socket_ := 1 } 27 [100, 0, 0, 0] 4
      (World.start [] [])).2.trace =
        [(Call.zmq_setsockopt 1 27 [100, 0, 0, 0] 4, { rc := 0, ptr := 0, mem := [] })] ∧
    (World.start ([] : List (Handle × Int × Bytes)) []).st = [] ∧
    (zmq.Socket.getsockopt optionStore { socket_ := 1 } 27 [100, 0, 0, 0] 4
      (World.start [] [])).2.st = [(1, 27, [100, 0, 0, 0])] ∧
    zmq.Socket.getsockopt optionStore = zmq.Socket.setsockopt optionStore := by
  refine ⟨by decide, rfl, by decide, rfl⟩

end ZmqCpp
